import Mathlib

/-!
# Verification of the entitlement / usage-ledger core

Shallow embedding of the entitlement subsystem of the bot:
`src/database.py` (SQLite-backed account store, ledger operations, daily
counter, redeem codes, referral attribution) and the access-gate pipeline
`handle_lookup` of `src/bot.py`, together with the constants of
`src/config.py`.

Modelling conventions:
* SQLite tables are lists of records; a `PRIMARY KEY` conflict on INSERT
  (`sqlite3.IntegrityError`) is modelled by an explicit membership test.
* `UPDATE ... WHERE p` is a map over the list that rewrites exactly the rows
  satisfying `p`; `cursor.rowcount > 0` becomes `List.any p`.
* Python `NULL`-able columns are `Option` values; Python truthiness of an
  integer column (`if row["used_by"]:`, `if referrer_id:`) is modelled by
  `intTruthy`, which is false on both `none` and `some 0`.
* Timestamps and dates are uninterpreted strings supplied as parameters (`now`,
  `today`), standing for `datetime.now().isoformat()` and
  `datetime.now().strftime("%Y-%m-%d")`.
-/

set_option maxRecDepth 4000

namespace Osint

/-! ## Constants (src/config.py, src/bot.py) -/

def OWNER_ID : Int := 6512242172

def SUDO_USERS : List Int := [6512242172, 6512242172, 6512242172]

def REFERRAL_REWARD_DIAMOND : Int := 1

def DAILY_FREE_GROUP_LIMIT : Int := 30

/-! ## Data model (tables created in Database.init_database) -/

/-- One row of the `users` table. -/
structure UserRec where
  userId : Int
  username : Option String := none
  firstName : Option String := none
  credits : Int := 0
  diamonds : Int := 0
  referrerId : Option Int := none
  referredCount : Int := 0
  isBanned : Bool := false
  dailySearchCount : Int := 0
  vhownerDailyCount : Int := 0
  lastSearchDate : Option String := none
  lastVerifyTime : Option String := none
  joinedDate : Option String := none
  lastActive : Option String := none
  deriving Repr, DecidableEq

/-- One row of the `redeem_codes` table. -/
structure CodeRec where
  code : String
  codeType : Option String := none
  amount : Option Int := none
  usedBy : Option Int := none
  usedAt : Option String := none
  deriving Repr, DecidableEq

/-- One row of the `referrals` table. -/
structure RefRec where
  referrerId : Int
  referredId : Int
  date : String
  deriving Repr, DecidableEq

/-- One row of the `search_logs` table. -/
structure LogRec where
  userId : Int
  searchType : String
  query : String
  timestamp : String
  deriving Repr, DecidableEq

/-- The whole persistent store (the SQLite database). -/
structure St where
  users : List UserRec := []
  referrals : List RefRec := []
  protectedNumbers : List String := []
  blacklist : List String := []
  searchLogs : List LogRec := []
  codes : List CodeRec := []
  deriving Repr, DecidableEq

/-- Python truthiness of a nullable integer column: `None` and `0` are falsy. -/
def intTruthy : Option Int → Bool
  | none => false
  | some v => v != 0

/-- Models `UPDATE ... SET (f) WHERE p`: rewrite exactly the rows satisfying `p`. -/
def updWhere {α : Type} (p : α → Bool) (f : α → α) (l : List α) : List α :=
  l.map (fun x => if p x then f x else x)

/-- Models Python str.upper for the ASCII code strings this system uses:
per-character uppercasing, written so the kernel can evaluate it (the
library's String.toUpper is defined by well-founded recursion and does not
reduce). -/
def pyUpper (s : String) : String := ⟨s.data.map Char.toUpper⟩

/-! ## Database operations (src/database.py) -/

/-- Embeds `Database.get_user` (database.py:155): `SELECT * FROM users WHERE user_id = ?`,
returning the first matching row. -/
def getUser (s : St) (uid : Int) : Option UserRec :=
  s.users.find? (fun u => u.userId == uid)

/-- Embeds `Database.add_user` (database.py:123): INSERT the user (failing on a
primary-key conflict), then, when `referrer_id` is truthy and the referrer row
exists, insert a referral record and credit the referrer. -/
def addUser (s : St) (uid : Int) (username firstName : Option String)
    (referrerId : Option Int) (now : String) : St × Bool :=
  if s.users.any (fun u => u.userId == uid) then (s, false)
  else
    let newRow : UserRec :=
      { userId := uid, username := username, firstName := firstName,
        referrerId := referrerId, joinedDate := some now, lastActive := some now }
    let users1 := s.users ++ [newRow]
    if intTruthy referrerId then
      let rid := referrerId.getD 0
      if users1.any (fun u => u.userId == rid) then
        let users2 := updWhere (fun u => u.userId == rid)
          (fun u => { u with referredCount := u.referredCount + 1,
                             diamonds := u.diamonds + REFERRAL_REWARD_DIAMOND }) users1
        let refs2 := s.referrals ++ [⟨rid, uid, now⟩]
        ({ s with users := users2, referrals := refs2 }, true)
      else ({ s with users := users1 }, true)
    else ({ s with users := users1 }, true)

/-- Embeds `Database.ensure_daily_counter` (database.py:163): lazy daily rollover.
Returns the updated store and the record handed back to the caller (the Python
dict, with the reset fields patched in when a reset happened). -/
def ensureDailyCounter (s : St) (uid : Int) (today : String) : St × Option UserRec :=
  match getUser s uid with
  | none => (s, none)
  | some u =>
    if u.lastSearchDate ≠ some today then
      let u' := { u with dailySearchCount := 0, vhownerDailyCount := 0,
                         lastSearchDate := some today }
      let users' := updWhere (fun v => v.userId == uid)
        (fun v => { v with dailySearchCount := 0, vhownerDailyCount := 0,
                           lastSearchDate := some today }) s.users
      ({ s with users := users' }, some u')
    else (s, some u)

/-- Embeds `Database.update_last_active` (database.py:204). -/
def updateLastActive (s : St) (uid : Int) (now : String) : St :=
  let users' := updWhere (fun u => u.userId == uid)
    (fun u => { u with lastActive := some now }) s.users
  { s with users := users' }

/-- Embeds `Database.update_diamonds` (database.py:211): `add` is unconditional,
`deduct` only touches the row when `diamonds >= amount` (single guarded
UPDATE), `set` assigns.  Success is `cursor.rowcount > 0`, i.e. some row
matched the WHERE clause; an unknown operation executes nothing and reports
failure. -/
def updateDiamonds (s : St) (uid : Int) (amount : Int) (operation : String) : St × Bool :=
  if operation = "add" then
    let users' := updWhere (fun u => u.userId == uid)
      (fun u => { u with diamonds := u.diamonds + amount }) s.users
    ({ s with users := users' }, s.users.any (fun u => u.userId == uid))
  else if operation = "deduct" then
    let users' := updWhere (fun u => u.userId == uid && decide (amount ≤ u.diamonds))
      (fun u => { u with diamonds := u.diamonds - amount }) s.users
    ({ s with users := users' },
     s.users.any (fun u => u.userId == uid && decide (amount ≤ u.diamonds)))
  else if operation = "set" then
    let users' := updWhere (fun u => u.userId == uid)
      (fun u => { u with diamonds := amount }) s.users
    ({ s with users := users' }, s.users.any (fun u => u.userId == uid))
  else (s, false)

/-- Embeds `Database.update_credits` (database.py:228): like `update_diamonds` but
with no `set` branch. -/
def updateCredits (s : St) (uid : Int) (amount : Int) (operation : String) : St × Bool :=
  if operation = "add" then
    let users' := updWhere (fun u => u.userId == uid)
      (fun u => { u with credits := u.credits + amount }) s.users
    ({ s with users := users' }, s.users.any (fun u => u.userId == uid))
  else if operation = "deduct" then
    let users' := updWhere (fun u => u.userId == uid && decide (amount ≤ u.credits))
      (fun u => { u with credits := u.credits - amount }) s.users
    ({ s with users := users' },
     s.users.any (fun u => u.userId == uid && decide (amount ≤ u.credits)))
  else (s, false)

/-- Embeds `Database.is_banned` (database.py:261): `bool(user and user.get("is_banned"))`. -/
def dbIsBanned (s : St) (uid : Int) : Bool :=
  match getUser s uid with
  | some u => u.isBanned
  | none => false

/-- Embeds `Database.is_blacklisted` (database.py:308). -/
def isBlacklisted (s : St) (q : String) : Bool :=
  s.blacklist.any (fun x => x == q)

/-- Embeds `Database.is_protected` (database.py:285). -/
def isProtectedNum (s : St) (q : String) : Bool :=
  s.protectedNumbers.any (fun x => x == q)

/-- Embeds `Database.create_redeem_code` (database.py:325): stores the code
upper-cased; a duplicate primary key reports failure. -/
def createRedeemCode (s : St) (code : String) (amount : Int) (codeType : String) : St × Bool :=
  if s.codes.any (fun r => r.code == pyUpper code) then (s, false)
  else
    let codes' := s.codes ++
      [{ code := pyUpper code, codeType := some codeType, amount := some amount }]
    ({ s with codes := codes' }, true)

/-- Embeds `Database.redeem_code` (database.py:340): look the code up (upper-cased);
absent → "Invalid code."; truthy `used_by` → "Code already used."; otherwise
credit `amount` (NULL coalesced to 0 by `row["amount"] or 0`) to the caller's
diamonds or credits and mark the code used.  Note the used-check is Python
truthiness, so a `used_by` of `0` does not count as used. -/
def redeemCode (s : St) (uid : Int) (code : String) (now : String) : St × Bool × String :=
  match s.codes.find? (fun r => r.code == pyUpper code) with
  | none => (s, false, "Invalid code.")
  | some row =>
    if intTruthy row.usedBy then (s, false, "Code already used.")
    else
      let amount := row.amount.getD 0
      let users' :=
        if row.codeType == some "diamonds" then
          updWhere (fun u => u.userId == uid)
            (fun u => { u with diamonds := u.diamonds + amount }) s.users
        else
          updWhere (fun u => u.userId == uid)
            (fun u => { u with credits := u.credits + amount }) s.users
      let codes' := s.codes.map (fun r => if r.code == pyUpper code
        then { r with usedBy := some uid, usedAt := some now } else r)
      ({ s with users := users', codes := codes' },
       true,
       "Redeemed " ++ toString amount ++ " "
         ++ (match row.codeType with | some t => t | none => "None") ++ ".")

/-- Embeds `Database.log_search` (database.py:367). -/
def logSearch (s : St) (uid : Int) (searchType query ts : String) : St :=
  { s with searchLogs := s.searchLogs ++ [⟨uid, searchType, query, ts⟩] }

/-! ## Bot layer (src/bot.py) -/

/-- Embeds `is_owner` (bot.py:55). -/
def isOwner (uid : Int) : Bool := uid == OWNER_ID

/-- Embeds `is_sudo` (bot.py:59). -/
def isSudo (uid : Int) : Bool := SUDO_USERS.contains uid

/-- Embeds `is_admin` (bot.py:63). -/
def isAdmin (uid : Int) : Bool := isOwner uid || isSudo uid

/-- Embeds `ensure_user_record` (bot.py:218): return the existing row if there is
one; otherwise insert via `add_user` (running its referral side effects) and
re-read. -/
def ensureUserRecord (s : St) (uid : Int) (username firstName : Option String)
    (referrerId : Option Int) (now : String) : St × Option UserRec :=
  match getUser s uid with
  | some existing => (s, some existing)
  | none =>
    let s1 := (addUser s uid username firstName referrerId now).1
    (s1, getUser s1 uid)

/-- The outcome of one `handle_lookup` request (which early `return` was
taken, or `proceed` = the request was handed to the fetch collaborator). -/
inductive Outcome where
  | notMember
  | bannedUser
  | dmDenied
  | quotaExhausted
  | blacklistedQuery
  | protectedQuery
  | insufficientDiamonds
  | proceed
  deriving Repr, DecidableEq

/-- Per-request context of `handle_lookup` (bot.py:624): the caller, the chat
kind, the membership-check result (an external collaborator), the lookup kind
and query, and the `cost_diamonds` keyword argument. -/
structure LookupCtx where
  userId : Int
  username : Option String := none
  firstName : Option String := none
  chatPrivate : Bool
  memberOk : Bool := true
  lookupType : String := ""
  query : String
  costDiamonds : Int := 0
  today : String
  now : String

/-- Models the inline UPDATE of bot.py:672-679: increment `daily_search_count`
by one and stamp `last_search_date` with today's date, in a single statement. -/
def incDailyCounter (s : St) (uid : Int) (today : String) : St :=
  let users' := updWhere (fun u => u.userId == uid)
    (fun u => { u with dailySearchCount := u.dailySearchCount + 1,
                       lastSearchDate := some today }) s.users
  { s with users := users' }

/-- Group quota branch of `handle_lookup` (bot.py:655-680): run
`ensure_daily_counter`, read the daily count and credits from the returned
record; at or over the free limit, deny when credits are non-positive,
otherwise deduct one credit (its result is discarded); finally increment the
daily counter and stamp `last_search_date` in one UPDATE.  `Sum.inl` is an
early `return`, `Sum.inr` the state in which the request continues. -/
def quotaGate (c : LookupCtx) (s : St) : (St × Outcome) ⊕ St :=
  let r := ensureDailyCounter s c.userId c.today
  let s3 := r.1
  let dailyUsed : Int := match r.2 with | some u => u.dailySearchCount | none => 0
  let credits : Int := match r.2 with | some u => u.credits | none => 0
  if DAILY_FREE_GROUP_LIMIT ≤ dailyUsed then
    if credits ≤ 0 then Sum.inl (s3, Outcome.quotaExhausted)
    else
      let s4 := (updateCredits s3 c.userId 1 "deduct").1
      Sum.inr (incDailyCounter s4 c.userId c.today)
  else Sum.inr (incDailyCounter s3 c.userId c.today)

/-- Diamond-charging branch of `handle_lookup` (bot.py:692-702), sequential
form: read the balance via `get_user`, deny when it is below the charge,
otherwise deduct (the deduction's return value is discarded). -/
def chargeGateSeq (charge : Int) (uid : Int) (s : St) : (St × Outcome) ⊕ St :=
  let balance : Int := match getUser s uid with | some u => u.diamonds | none => 0
  if balance < charge then Sum.inl (s, Outcome.insufficientDiamonds)
  else Sum.inr (updateDiamonds s uid charge "deduct").1

/-- Embeds `handle_lookup` (bot.py:624-711), up to the hand-off to the external
fetch collaborator: membership gate, auto-registration, last-active touch,
ban gate, DM scope gate, group quota gate, blacklist and protected gates,
diamond charge (`charge` is 0 for admins and for all group requests), then
the audit log write and `proceed`. -/
def handleLookup (c : LookupCtx) (s : St) : St × Outcome :=
  if !isAdmin c.userId && !c.memberOk then (s, Outcome.notMember)
  else
    let s1 := if (getUser s c.userId).isNone
      then (ensureUserRecord s c.userId c.username c.firstName none c.now).1 else s
    let s2 := updateLastActive s1 c.userId c.now
    if dbIsBanned s2 c.userId then (s2, Outcome.bannedUser)
    else if c.chatPrivate && !isAdmin c.userId then (s2, Outcome.dmDenied)
    else
      match (if !c.chatPrivate && !isAdmin c.userId then quotaGate c s2 else Sum.inr s2) with
      | Sum.inl denied => denied
      | Sum.inr s5 =>
        if isBlacklisted s5 c.query then (s5, Outcome.blacklistedQuery)
        else if isProtectedNum s5 c.query && !isOwner c.userId then (s5, Outcome.protectedQuery)
        else
          let charge : Int := if isAdmin c.userId then 0
            else if c.chatPrivate then c.costDiamonds else 0
          match (if charge ≠ 0 then chargeGateSeq charge c.userId s5 else Sum.inr s5) with
          | Sum.inl denied => denied
          | Sum.inr s6 => (logSearch s6 c.userId c.lookupType c.query c.now, Outcome.proceed)

/-- Charging fragment of `handle_lookup` (bot.py:689-702) with its two
database round-trips made explicit: `get_user` and `update_diamonds` each
open their own SQLite connection, so a concurrent request can commit between
them.  `usersAtRead` is the users table when the balance is read,
`usersAtDeduct` the table when the deduction runs.  Returns the final users
table, whether the request proceeds, and the deduction's reported result
(`none` when no deduction was executed).  The code discards that result. -/
def chargeFragment (charge : Int) (uid : Int)
    (usersAtRead usersAtDeduct : List UserRec) : List UserRec × Bool × Option Bool :=
  if charge ≠ 0 then
    let balance : Int :=
      ((usersAtRead.find? (fun u => u.userId == uid)).map UserRec.diamonds).getD 0
    if balance < charge then (usersAtDeduct, false, none)
    else
      let users' := updWhere (fun u => u.userId == uid && decide (charge ≤ u.diamonds))
        (fun u => { u with diamonds := u.diamonds - charge }) usersAtDeduct
      (users', true,
       some (usersAtDeduct.any (fun u => u.userId == uid && decide (charge ≤ u.diamonds))))
  else (usersAtDeduct, true, none)

/-- Credit-paying branch of the group quota gate (bot.py:656-670), reached
when `daily_search_count` is at the free limit, with its two database
round-trips made explicit: the `credits` value the gate inspects comes from
the record read by `ensure_daily_counter` over `usersAtRead`, while
`update_credits` runs in a separate SQLite connection over `usersAtDeduct`,
so a concurrent request can commit between the two.  Returns the final
users table, whether the request proceeds past the quota gate, and the
credit deduction's reported result (`none` when no deduction was executed).
The code discards that result (bot.py:670). -/
def creditFragment (uid : Int) (usersAtRead usersAtDeduct : List UserRec) :
    List UserRec × Bool × Option Bool :=
  let credits : Int :=
    ((usersAtRead.find? (fun u => u.userId == uid)).map UserRec.credits).getD 0
  if credits ≤ 0 then (usersAtDeduct, false, none)
  else
    let users' := updWhere (fun u => u.userId == uid && decide ((1 : Int) ≤ u.credits))
      (fun u => { u with credits := u.credits - 1 }) usersAtDeduct
    (users', true,
     some (usersAtDeduct.any (fun u => u.userId == uid && decide ((1 : Int) ≤ u.credits))))

/-! ## Derived notions used by the statements -/

/-- Iterate `n` lookup requests with the same context (used for the daily
quota scenario). -/
def iterLookup (c : LookupCtx) : Nat → St → St
  | 0, s => s
  | n + 1, s => (handleLookup c (iterLookup c n s)).1

/-- Uniqueness of the `user_id` primary key. -/
@[reducible] def UniqIds (l : List UserRec) : Prop := (l.map UserRec.userId).Nodup

/-- All stored balances are non-negative. -/
@[reducible] def NonnegBalances (l : List UserRec) : Prop := ∀ u ∈ l, 0 ≤ u.credits ∧ 0 ≤ u.diamonds

/-- Which balance column a ledger call targets. -/
inductive BalanceKind where
  | diamonds
  | credits
  deriving Repr, DecidableEq

/-- One call to `update_diamonds` or `update_credits`. -/
structure LedgerCall where
  kind : BalanceKind
  uid : Int
  amount : Int
  operation : String
  deriving Repr, DecidableEq

/-- Apply one ledger call to the store, discarding the success flag. -/
def applyLedgerCall (s : St) (o : LedgerCall) : St :=
  match o.kind with
  | BalanceKind.diamonds => (updateDiamonds s o.uid o.amount o.operation).1
  | BalanceKind.credits => (updateCredits s o.uid o.amount o.operation).1

/-- Run a sequence of ledger calls left to right. -/
def runLedgerCalls (s : St) (ops : List LedgerCall) : St :=
  ops.foldl applyLedgerCall s

/-! ## Concrete fixtures for witnesses and counterexamples -/

/-- Fixture: a store with user 7 holding 2 credits and one unused
credits-code "A" worth 5. -/
def stRedeem : St :=
  { users := [{ userId := 7, credits := 2 }],
    codes := [{ code := "A", codeType := some "credits", amount := some 5 }] }

/-- Fixture: a group-chat lookup request by the non-admin user 1. -/
def ctxGroup : LookupCtx :=
  { userId := 1, chatPrivate := false, query := "q", today := "t", now := "n" }

/-- Fixture: a store with the fresh user 1 (all balances and counters 0). -/
def stFresh : St := { users := [{ userId := 1 }] }

/-- Fixture: user 1 mid-day with the query "q" blacklisted. -/
def stBlq : St :=
  { users := [{ userId := 1, lastSearchDate := some "t" }], blacklist := ["q"] }

/-- Fixture: a group-chat lookup by user 1 whose kind costs 5 diamonds. -/
def ctxCost : LookupCtx :=
  { userId := 1, chatPrivate := false, query := "v", today := "t", now := "n",
    costDiamonds := 5 }

/-- Fixture: user 1 holding 3 diamonds. -/
def stDia3 : St :=
  { users := [{ userId := 1, diamonds := 3, lastSearchDate := some "t" }] }

/-- Fixture: user 1 with the free quota exhausted and one credit. -/
def stPaid : St :=
  { users := [{ userId := 1, dailySearchCount := 30, credits := 1,
                lastSearchDate := some "t" }] }

/-- Fixture: a store holding only the prospective referrer, user 9. -/
def stRef : St := { users := [{ userId := 9 }] }

/-- Fixture: user 1 past the free limit holding one credit, with the query
"q" blacklisted. -/
def stBlqPaid : St :=
  { users := [{ userId := 1, dailySearchCount := 30, credits := 1,
                lastSearchDate := some "t" }],
    blacklist := ["q"] }

/-! ## General lemmas about the table operations -/

theorem find?_map_pres {α : Type} (g : α → α) (p : α → Bool) (l : List α)
    (h : ∀ x, p (g x) = p x) :
    (l.map g).find? p = (l.find? p).map g := by
  induction l with
  | nil => rfl
  | cons a t ih =>
    by_cases ha : p a = true
    · have hg : p (g a) = true := by rw [h a]; exact ha
      simp [List.find?_cons, ha, hg]
    · have ha' : p a = false := by simpa using ha
      have hg : p (g a) = false := by rw [h a]; exact ha'
      simp [List.find?_cons, ha', hg, ih]

theorem updWhere_eq_self {α : Type} (p : α → Bool) (f : α → α) (l : List α)
    (h : ∀ x ∈ l, p x = false) : updWhere p f l = l := by
  unfold updWhere
  have h' : ∀ x ∈ l, (if p x then f x else x) = id x := by
    intro x hx
    simp [h x hx]
  rw [List.map_congr_left h', List.map_id]

theorem find?_key_updWhere (l : List UserRec) (uid : Int) (f : UserRec → UserRec)
    (hid : ∀ u, (f u).userId = u.userId) :
    (updWhere (fun u => u.userId == uid) f l).find? (fun u => u.userId == uid)
      = (l.find? (fun u => u.userId == uid)).map f := by
  unfold updWhere
  rw [find?_map_pres]
  · cases h : l.find? (fun u => u.userId == uid) with
    | none => simp
    | some u =>
      have hp : u.userId = uid := by simpa using List.find?_some h
      simp [hp]
  · intro x
    by_cases hx : (x.userId == uid) = true
    · simp only [hx, if_true, hid]
    · have hx' : (x.userId == uid) = false := by simpa using hx
      simp [hx']

theorem find?_guard_updWhere (l : List UserRec) (uid : Int) (g : UserRec → Bool)
    (f : UserRec → UserRec) (hid : ∀ u, (f u).userId = u.userId) :
    (updWhere (fun u => u.userId == uid && g u) f l).find? (fun u => u.userId == uid)
      = (l.find? (fun u => u.userId == uid)).map (fun u => if g u then f u else u) := by
  unfold updWhere
  rw [find?_map_pres]
  · cases h : l.find? (fun u => u.userId == uid) with
    | none => simp
    | some u =>
      have hp : u.userId = uid := by simpa using List.find?_some h
      by_cases hg : g u = true
      · simp [hp, hg]
      · have hg' : g u = false := by simpa using hg
        simp [hp, hg']
  · intro x
    by_cases hx : (x.userId == uid) = true
    · by_cases hg : g x = true
      · simp only [hx, hg, Bool.and_self, if_true, hid]
      · have hg' : g x = false := by simpa using hg
        simp [hx, hg', hid]
    · have hx' : (x.userId == uid) = false := by simpa using hx
      simp [hx']

theorem getUser_upd_key (s : St) (l : List UserRec) (uid : Int) (f : UserRec → UserRec)
    (hid : ∀ u, (f u).userId = u.userId) :
    getUser { s with users := updWhere (fun u => u.userId == uid) f l } uid
      = (l.find? (fun u => u.userId == uid)).map f :=
  find?_key_updWhere l uid f hid

theorem getUser_upd_guard (s : St) (l : List UserRec) (uid : Int) (g : UserRec → Bool)
    (f : UserRec → UserRec) (hid : ∀ u, (f u).userId = u.userId) :
    getUser { s with users := updWhere (fun u => u.userId == uid && g u) f l } uid
      = (l.find? (fun u => u.userId == uid)).map (fun u => if g u then f u else u) :=
  find?_guard_updWhere l uid g f hid

theorem filter_map_pres {α : Type} (g : α → α) (p : α → Bool) (l : List α)
    (h : ∀ x, p (g x) = p x) :
    (l.map g).filter p = (l.filter p).map g := by
  induction l with
  | nil => rfl
  | cons a t ih =>
    by_cases ha : p a = true
    · have hg : p (g a) = true := by rw [h a]; exact ha
      simp [List.filter_cons, ha, hg, ih]
    · have ha' : p a = false := by simpa using ha
      have hg : p (g a) = false := by rw [h a]; exact ha'
      simp [List.filter_cons, ha', hg, ih]

theorem any_key_none (l : List UserRec) (uid : Int)
    (h : l.find? (fun u => u.userId == uid) = none) :
    l.any (fun u => u.userId == uid) = false := by
  rw [List.find?_eq_none] at h
  rw [List.any_eq_false]
  intro x hx
  simpa using h x hx

theorem any_key_guard_none (l : List UserRec) (uid : Int) (g : UserRec → Bool)
    (h : l.find? (fun u => u.userId == uid) = none) :
    l.any (fun u => u.userId == uid && g u) = false := by
  rw [List.find?_eq_none] at h
  rw [List.any_eq_false]
  intro x hx
  have := h x hx
  simp only [Bool.and_eq_true, not_and] at *
  intro hxx
  exact absurd hxx this

theorem eq_of_uniq_mem {l : List UserRec} (hn : UniqIds l) {u v : UserRec}
    (hu : u ∈ l) (hv : v ∈ l) (h : u.userId = v.userId) : u = v :=
  List.inj_on_of_nodup_map hn hu hv h

/-! ## Unfolding equations for the ledger operations -/

theorem updateDiamonds_add (s : St) (uid amt : Int) :
    updateDiamonds s uid amt "add"
      = ({ s with users := (updWhere (fun u => u.userId == uid)
            (fun u => { u with diamonds := u.diamonds + amt }) s.users) },
         s.users.any (fun u => u.userId == uid)) := rfl

theorem updateDiamonds_deduct (s : St) (uid amt : Int) :
    updateDiamonds s uid amt "deduct"
      = ({ s with users := (updWhere (fun u => u.userId == uid && decide (amt ≤ u.diamonds))
            (fun u => { u with diamonds := u.diamonds - amt }) s.users) },
         s.users.any (fun u => u.userId == uid && decide (amt ≤ u.diamonds))) := rfl

theorem updateCredits_add (s : St) (uid amt : Int) :
    updateCredits s uid amt "add"
      = ({ s with users := (updWhere (fun u => u.userId == uid)
            (fun u => { u with credits := u.credits + amt }) s.users) },
         s.users.any (fun u => u.userId == uid)) := rfl

theorem updateCredits_deduct (s : St) (uid amt : Int) :
    updateCredits s uid amt "deduct"
      = ({ s with users := (updWhere (fun u => u.userId == uid && decide (amt ≤ u.credits))
            (fun u => { u with credits := u.credits - amt }) s.users) },
         s.users.any (fun u => u.userId == uid && decide (amt ≤ u.credits))) := rfl

/-! ## Step lemmas for the pipeline states -/

theorem getUser_updateLastActive (s : St) (uid : Int) (now : String) :
    getUser (updateLastActive s uid now) uid
      = (getUser s uid).map (fun u => { u with lastActive := some now }) :=
  getUser_upd_key s s.users uid _ (fun _ => rfl)

theorem getUser_incDailyCounter (s : St) (uid : Int) (today : String) :
    getUser (incDailyCounter s uid today) uid
      = (getUser s uid).map (fun u => { u with dailySearchCount := u.dailySearchCount + 1,
                                               lastSearchDate := some today }) :=
  getUser_upd_key s s.users uid _ (fun _ => rfl)

theorem find?_codes_marked (l : List CodeRec) (key : String) (uid : Int) (now : String) :
    (l.map (fun r => if r.code == key
        then { r with usedBy := some uid, usedAt := some now } else r)).find?
          (fun r => r.code == key)
      = (l.find? (fun r => r.code == key)).map (fun r => if r.code == key
          then { r with usedBy := some uid, usedAt := some now } else r) := by
  apply find?_map_pres
  intro x
  by_cases hx : (x.code == key) = true
  · simp [hx]
  · have hx' : (x.code == key) = false := by simpa using hx
    simp [hx']

/-! ## Claim C7 -/

/-- C7: `ensure_daily_counter` resets the daily counter at most once per
calendar date: for an existing user, the first call on a new date sets
`daily_search_count = 0` (and `last_search_date = today`) both in the store
and in the returned record; a call on the already-current date returns the
store and record completely unchanged; and immediately after any call, a
repeated call with the same date is a pure read (state unchanged, record as
stored). -/
theorem ensureDailyCounter_noop (s : St) (uid : Int) (today : String) (u : UserRec)
    (h : getUser s uid = some u) (hd : u.lastSearchDate = some today) :
    ensureDailyCounter s uid today = (s, some u) := by
  unfold ensureDailyCounter
  rw [h]
  dsimp only
  rw [if_neg (by simp [hd])]

theorem ensureDailyCounter_reset (s : St) (uid : Int) (today : String) (u : UserRec)
    (h : getUser s uid = some u) (hd : u.lastSearchDate ≠ some today) :
    ensureDailyCounter s uid today
      = ({ s with users := (updWhere (fun v => v.userId == uid)
            (fun v => { v with dailySearchCount := 0, vhownerDailyCount := 0,
                               lastSearchDate := some today }) s.users) },
         some { u with dailySearchCount := 0, vhownerDailyCount := 0,
                       lastSearchDate := some today }) := by
  unfold ensureDailyCounter
  rw [h]
  dsimp only
  rw [if_pos hd]

theorem C7_daily_reset_at_most_once (s : St) (uid : Int) (today : String) (u : UserRec)
    (h : getUser s uid = some u) :
    (u.lastSearchDate ≠ some today →
        getUser (ensureDailyCounter s uid today).1 uid
          = some { u with dailySearchCount := 0, vhownerDailyCount := 0,
                          lastSearchDate := some today } ∧
        (ensureDailyCounter s uid today).2
          = some { u with dailySearchCount := 0, vhownerDailyCount := 0,
                          lastSearchDate := some today }) ∧
    (u.lastSearchDate = some today → ensureDailyCounter s uid today = (s, some u)) ∧
    (ensureDailyCounter (ensureDailyCounter s uid today).1 uid today
      = ((ensureDailyCounter s uid today).1,
         getUser (ensureDailyCounter s uid today).1 uid)) := by
  by_cases hd : u.lastSearchDate = some today
  · have hfst := ensureDailyCounter_noop s uid today u h hd
    refine ⟨fun hne => absurd hd hne, fun _ => hfst, ?_⟩
    rw [hfst]
    simpa [h] using hfst
  · have hfst := ensureDailyCounter_reset s uid today u h hd
    have hg1 : getUser (ensureDailyCounter s uid today).1 uid
        = some { u with dailySearchCount := 0, vhownerDailyCount := 0,
                        lastSearchDate := some today } := by
      rw [hfst]
      rw [getUser_upd_key s s.users uid
        (fun v => { v with dailySearchCount := 0, vhownerDailyCount := 0,
                           lastSearchDate := some today }) (fun _ => rfl)]
      rw [show s.users.find? (fun v => v.userId == uid) = some u from h]
      rfl
    refine ⟨fun _ => ⟨hg1, by rw [hfst]⟩, fun hEq => absurd hEq hd, ?_⟩
    rw [ensureDailyCounter_noop (ensureDailyCounter s uid today).1 uid today _ hg1 rfl, hg1]

/-- C7 witness: the fresh user 1 has `last_search_date = NULL ≠ "t"`; the
first call resets, and an immediate second call with the same date is a pure
read. -/
theorem C7_witness :
    (getUser (ensureDailyCounter stFresh 1 "t").1 1
      = some { userId := 1, lastSearchDate := some "t" } ∧
     (ensureDailyCounter stFresh 1 "t").2
      = some { userId := 1, lastSearchDate := some "t" }) ∧
    (ensureDailyCounter (ensureDailyCounter stFresh 1 "t").1 1 "t"
      = ((ensureDailyCounter stFresh 1 "t").1,
         getUser (ensureDailyCounter stFresh 1 "t").1 1)) := by
  have h := C7_daily_reset_at_most_once stFresh 1 "t" { userId := 1 } (by decide)
  exact ⟨h.1 (by decide), h.2.2⟩

/-! ## Claim C5 -/

/-- C5 (amended): in both deduction steps of the quota/charge gate — the
diamond charge (bot.py:689-702) and the credit payment past the free limit
(bot.py:656-670) — the decision to proceed is determined entirely by the
balance read that precedes the deduction; the deduction's reported
success/failure is discarded.  Formally, for each fragment: the proceed
flag does not depend on the users table seen by the deduction (first
conjunct), and it equals the read-side test (second conjunct: "charge is
zero or the diamond balance read is not below the charge", respectively
"the credits read are positive"). -/
theorem C5_amended_decision_from_read (charge : Int) (uid : Int)
    (usersAtRead usersAtDeduct usersAtDeduct' : List UserRec) :
    ((chargeFragment charge uid usersAtRead usersAtDeduct).2.1
        = (chargeFragment charge uid usersAtRead usersAtDeduct').2.1 ∧
     (chargeFragment charge uid usersAtRead usersAtDeduct).2.1
        = (decide (charge = 0)
            || !decide ((((usersAtRead.find? (fun u => u.userId == uid)).map
                  UserRec.diamonds).getD 0) < charge))) ∧
    ((creditFragment uid usersAtRead usersAtDeduct).2.1
        = (creditFragment uid usersAtRead usersAtDeduct').2.1 ∧
     (creditFragment uid usersAtRead usersAtDeduct).2.1
        = !decide ((((usersAtRead.find? (fun u => u.userId == uid)).map
              UserRec.credits).getD 0) ≤ 0)) := by
  constructor
  · unfold chargeFragment
    by_cases hc : charge = 0
    · simp [hc]
    · by_cases hb : (((usersAtRead.find? (fun u => u.userId == uid)).map
          UserRec.diamonds).getD 0) < charge
      · simp [hc, hb]
      · simp [hc, hb]
  · unfold creditFragment
    by_cases hcr : (((usersAtRead.find? (fun u => u.userId == uid)).map
        UserRec.credits).getD 0) ≤ 0
    · simp [hcr]
    · simp [hcr]

/-- C5 counterexample: in both fragments the balance seen at read time is
sufficient but is gone by deduct time (a concurrent request spent it in
between), so the deduction is executed and reports failure (`some false`),
yet the request still proceeds — refuting the claim that a request whose
deduction fails is denied. -/
theorem C5_counterexample :
    ((chargeFragment 5 1 [{ userId := 1, diamonds := 5 }]
        [{ userId := 1, diamonds := 0 }]).2.2 = some false ∧
     (chargeFragment 5 1 [{ userId := 1, diamonds := 5 }]
        [{ userId := 1, diamonds := 0 }]).2.1 = true) ∧
    ((creditFragment 1 [{ userId := 1, credits := 1 }]
        [{ userId := 1, credits := 0 }]).2.2 = some false ∧
     (creditFragment 1 [{ userId := 1, credits := 1 }]
        [{ userId := 1, credits := 0 }]).2.1 = true) := by
  refine ⟨⟨?_, ?_⟩, ?_, ?_⟩ <;> decide

/-! ## Claim C2: helper lemmas -/

theorem deduct_diamonds_success (s : St) (uid amt : Int) (u : UserRec)
    (hu : getUser s uid = some u) (hle : amt ≤ u.diamonds) :
    (updateDiamonds s uid amt "deduct").2 = true ∧
    getUser (updateDiamonds s uid amt "deduct").1 uid
      = some { u with diamonds := u.diamonds - amt } := by
  have hp : u.userId = uid := by simpa using List.find?_some hu
  rw [updateDiamonds_deduct]
  constructor
  · apply List.any_eq_true.mpr
    exact ⟨u, List.mem_of_find?_eq_some hu, by simp [hp, hle]⟩
  · rw [getUser_upd_guard s s.users uid (fun v => decide (amt ≤ v.diamonds))
      (fun v => { v with diamonds := v.diamonds - amt }) (fun _ => rfl)]
    rw [show s.users.find? (fun v => v.userId == uid) = some u from hu]
    simp [hle]

theorem deduct_diamonds_fail (s : St) (uid amt : Int) (u : UserRec)
    (hn : UniqIds s.users) (hu : getUser s uid = some u) (hlt : u.diamonds < amt) :
    updateDiamonds s uid amt "deduct" = (s, false) := by
  have humem : u ∈ s.users := List.mem_of_find?_eq_some hu
  have hp : u.userId = uid := by simpa using List.find?_some hu
  have hall : ∀ x ∈ s.users,
      ((fun v => v.userId == uid && decide (amt ≤ v.diamonds)) x) = false := by
    intro x hx
    by_cases hxid : x.userId = uid
    · have hxu : x = u := eq_of_uniq_mem hn hx humem (by rw [hxid, hp])
      subst hxu
      simp [not_le.mpr hlt]
    · simp [hxid]
  rw [updateDiamonds_deduct]
  rw [updWhere_eq_self _ _ _ hall]
  rw [List.any_eq_false.mpr (fun x hx => by simpa using hall x hx)]

theorem deduct_diamonds_absent (s : St) (uid amt : Int)
    (hu : getUser s uid = none) :
    updateDiamonds s uid amt "deduct" = (s, false) := by
  have hall : ∀ x ∈ s.users,
      ((fun v => v.userId == uid && decide (amt ≤ v.diamonds)) x) = false := by
    intro x hx
    have := (List.find?_eq_none.mp hu) x hx
    simp only [Bool.and_eq_false_iff]
    left
    simpa using this
  rw [updateDiamonds_deduct]
  rw [updWhere_eq_self _ _ _ hall]
  rw [List.any_eq_false.mpr (fun x hx => by simpa using hall x hx)]

theorem deduct_credits_success (s : St) (uid amt : Int) (u : UserRec)
    (hu : getUser s uid = some u) (hle : amt ≤ u.credits) :
    (updateCredits s uid amt "deduct").2 = true ∧
    getUser (updateCredits s uid amt "deduct").1 uid
      = some { u with credits := u.credits - amt } := by
  have hp : u.userId = uid := by simpa using List.find?_some hu
  rw [updateCredits_deduct]
  constructor
  · apply List.any_eq_true.mpr
    exact ⟨u, List.mem_of_find?_eq_some hu, by simp [hp, hle]⟩
  · rw [getUser_upd_guard s s.users uid (fun v => decide (amt ≤ v.credits))
      (fun v => { v with credits := v.credits - amt }) (fun _ => rfl)]
    rw [show s.users.find? (fun v => v.userId == uid) = some u from hu]
    simp [hle]

theorem deduct_credits_fail (s : St) (uid amt : Int) (u : UserRec)
    (hn : UniqIds s.users) (hu : getUser s uid = some u) (hlt : u.credits < amt) :
    updateCredits s uid amt "deduct" = (s, false) := by
  have humem : u ∈ s.users := List.mem_of_find?_eq_some hu
  have hp : u.userId = uid := by simpa using List.find?_some hu
  have hall : ∀ x ∈ s.users,
      ((fun v => v.userId == uid && decide (amt ≤ v.credits)) x) = false := by
    intro x hx
    by_cases hxid : x.userId = uid
    · have hxu : x = u := eq_of_uniq_mem hn hx humem (by rw [hxid, hp])
      subst hxu
      simp [not_le.mpr hlt]
    · simp [hxid]
  rw [updateCredits_deduct]
  rw [updWhere_eq_self _ _ _ hall]
  rw [List.any_eq_false.mpr (fun x hx => by simpa using hall x hx)]

theorem deduct_credits_absent (s : St) (uid amt : Int)
    (hu : getUser s uid = none) :
    updateCredits s uid amt "deduct" = (s, false) := by
  have hall : ∀ x ∈ s.users,
      ((fun v => v.userId == uid && decide (amt ≤ v.credits)) x) = false := by
    intro x hx
    have := (List.find?_eq_none.mp hu) x hx
    simp only [Bool.and_eq_false_iff]
    left
    simpa using this
  rw [updateCredits_deduct]
  rw [updWhere_eq_self _ _ _ hall]
  rw [List.any_eq_false.mpr (fun x hx => by simpa using hall x hx)]

theorem nonneg_applyLedgerCall (s : St) (o : LedgerCall)
    (hop : o.operation = "add" ∨ o.operation = "deduct") (hamt : 0 ≤ o.amount)
    (h : NonnegBalances s.users) : NonnegBalances (applyLedgerCall s o).users := by
  intro v hv
  rcases o with ⟨kind, uid, amount, operation⟩
  dsimp only at hop hamt
  cases kind with
  | diamonds =>
    rcases hop with hA | hD
    · subst hA
      simp only [applyLedgerCall, updateDiamonds_add, updWhere] at hv
      rcases List.mem_map.mp hv with ⟨x, hx, rfl⟩
      rcases h x hx with ⟨hc, hd⟩
      by_cases hpx : (x.userId == uid) = true
      · simp only [hpx, if_true]
        exact ⟨hc, by omega⟩
      · have hpx' : (x.userId == uid) = false := by simpa using hpx
        simp only [hpx', Bool.false_eq_true, if_false]
        exact ⟨hc, hd⟩
    · subst hD
      simp only [applyLedgerCall, updateDiamonds_deduct, updWhere] at hv
      rcases List.mem_map.mp hv with ⟨x, hx, rfl⟩
      rcases h x hx with ⟨hc, hd⟩
      by_cases hpx : (x.userId == uid && decide (amount ≤ x.diamonds)) = true
      · have hge : amount ≤ x.diamonds := by
          have := (Bool.and_eq_true _ _).mp hpx
          simpa using this.2
        simp only [hpx, if_true]
        exact ⟨hc, by omega⟩
      · have hpx' : (x.userId == uid && decide (amount ≤ x.diamonds)) = false := by
          simpa using hpx
        simp only [hpx', Bool.false_eq_true, if_false]
        exact ⟨hc, hd⟩
  | credits =>
    rcases hop with hA | hD
    · subst hA
      simp only [applyLedgerCall, updateCredits_add, updWhere] at hv
      rcases List.mem_map.mp hv with ⟨x, hx, rfl⟩
      rcases h x hx with ⟨hc, hd⟩
      by_cases hpx : (x.userId == uid) = true
      · simp only [hpx, if_true]
        exact ⟨by omega, hd⟩
      · have hpx' : (x.userId == uid) = false := by simpa using hpx
        simp only [hpx', Bool.false_eq_true, if_false]
        exact ⟨hc, hd⟩
    · subst hD
      simp only [applyLedgerCall, updateCredits_deduct, updWhere] at hv
      rcases List.mem_map.mp hv with ⟨x, hx, rfl⟩
      rcases h x hx with ⟨hc, hd⟩
      by_cases hpx : (x.userId == uid && decide (amount ≤ x.credits)) = true
      · have hge : amount ≤ x.credits := by
          have := (Bool.and_eq_true _ _).mp hpx
          simpa using this.2
        simp only [hpx, if_true]
        exact ⟨by omega, hd⟩
      · have hpx' : (x.userId == uid && decide (amount ≤ x.credits)) = false := by
          simpa using hpx
        simp only [hpx', Bool.false_eq_true, if_false]
        exact ⟨hc, hd⟩

theorem nonneg_runLedgerCalls (ops : List LedgerCall) :
    ∀ s : St, (∀ o ∈ ops, (o.operation = "add" ∨ o.operation = "deduct") ∧ 0 ≤ o.amount) →
      NonnegBalances s.users → NonnegBalances (runLedgerCalls s ops).users := by
  induction ops with
  | nil => intro s _ h; simpa [runLedgerCalls] using h
  | cons o t ih =>
    intro s hops h
    have hstep := nonneg_applyLedgerCall s o (hops o (by simp)).1 (hops o (by simp)).2 h
    have := ih (applyLedgerCall s o) (fun x hx => hops x (by simp [hx])) hstep
    simpa [runLedgerCalls, List.foldl] using this

/-! ## Claim C2 -/

/-- C2 (amended): each `deduct` is a single guarded UPDATE: for an existing
user with sufficient balance it subtracts exactly the amount and reports
success; with insufficient balance, or for a nonexistent user, it changes
nothing and reports failure (for diamonds and credits alike).  Consequently
any sequence of add/deduct calls with NON-NEGATIVE amounts preserves
non-negativity of all balances.  (The non-negativity consequence of the
original claim fails for `add` with a negative amount, which is reachable
from the admin command — see the counterexample.) -/
theorem C2_amended_deduct_guarded_and_nonneg :
    (∀ (s : St) (uid amt : Int) (u : UserRec), getUser s uid = some u →
        amt ≤ u.diamonds →
        (updateDiamonds s uid amt "deduct").2 = true ∧
        getUser (updateDiamonds s uid amt "deduct").1 uid
          = some { u with diamonds := u.diamonds - amt }) ∧
    (∀ (s : St) (uid amt : Int) (u : UserRec), UniqIds s.users →
        getUser s uid = some u → u.diamonds < amt →
        updateDiamonds s uid amt "deduct" = (s, false)) ∧
    (∀ (s : St) (uid amt : Int), getUser s uid = none →
        updateDiamonds s uid amt "deduct" = (s, false)) ∧
    (∀ (s : St) (uid amt : Int) (u : UserRec), getUser s uid = some u →
        amt ≤ u.credits →
        (updateCredits s uid amt "deduct").2 = true ∧
        getUser (updateCredits s uid amt "deduct").1 uid
          = some { u with credits := u.credits - amt }) ∧
    (∀ (s : St) (uid amt : Int) (u : UserRec), UniqIds s.users →
        getUser s uid = some u → u.credits < amt →
        updateCredits s uid amt "deduct" = (s, false)) ∧
    (∀ (s : St) (uid amt : Int), getUser s uid = none →
        updateCredits s uid amt "deduct" = (s, false)) ∧
    (∀ (ops : List LedgerCall) (s : St),
        (∀ o ∈ ops, (o.operation = "add" ∨ o.operation = "deduct") ∧ 0 ≤ o.amount) →
        NonnegBalances s.users → NonnegBalances (runLedgerCalls s ops).users) :=
  ⟨deduct_diamonds_success,
   fun s uid amt u hn hu hlt => deduct_diamonds_fail s uid amt u hn hu hlt,
   deduct_diamonds_absent,
   deduct_credits_success,
   fun s uid amt u hn hu hlt => deduct_credits_fail s uid amt u hn hu hlt,
   deduct_credits_absent,
   fun ops s => nonneg_runLedgerCalls ops s⟩

/-- C2 witness: deducting 2 of user 1's 3 diamonds succeeds and leaves 1;
deducting 4 fails and returns the store unchanged; a deduct sequence with a
non-negative amount keeps balances non-negative. -/
theorem C2_witness :
    ((updateDiamonds stDia3 1 2 "deduct").2 = true ∧
      getUser (updateDiamonds stDia3 1 2 "deduct").1 1
        = some { userId := 1, diamonds := 1, lastSearchDate := some "t" }) ∧
    updateDiamonds stDia3 1 4 "deduct" = (stDia3, false) ∧
    NonnegBalances (runLedgerCalls stDia3
      [{ kind := BalanceKind.diamonds, uid := 1, amount := 2,
         operation := "deduct" }]).users := by
  refine ⟨?_, ?_, ?_⟩
  · exact C2_amended_deduct_guarded_and_nonneg.1 stDia3 1 2
      { userId := 1, diamonds := 3, lastSearchDate := some "t" } (by decide) (by decide)
  · exact C2_amended_deduct_guarded_and_nonneg.2.1 stDia3 1 4
      { userId := 1, diamonds := 3, lastSearchDate := some "t" } (by decide) (by decide)
      (by decide)
  · exact C2_amended_deduct_guarded_and_nonneg.2.2.2.2.2.2
      [{ kind := BalanceKind.diamonds, uid := 1, amount := 2, operation := "deduct" }]
      stDia3 (by decide) (by decide)

/-- C2 counterexample: the claim's consequence "no sequence of add/deduct
operations ever makes the balance negative" is false as stated: an `add`
with a negative amount (reachable via the admin command, which accepts any
integer) drives a zero balance to -1. -/
theorem C2_counterexample :
    NonnegBalances stFresh.users ∧
    ¬ NonnegBalances (runLedgerCalls stFresh
        [{ kind := BalanceKind.diamonds, uid := 1, amount := -1,
           operation := "add" }]).users := by
  constructor
  · decide
  · decide

/-! ## Claim C1 -/

theorem redeem_already_used (s : St) (uid2 : Int) (code2 now2 : String) (row : CodeRec)
    (hrow : s.codes.find? (fun r => r.code == pyUpper code2) = some row)
    (hused : intTruthy row.usedBy = true) :
    redeemCode s uid2 code2 now2 = (s, false, "Code already used.") := by
  unfold redeemCode
  rw [hrow]
  dsimp only
  rw [if_pos hused]

/-- C1 (amended): provided the claimant has a nonzero user id and an account
row, redeeming a valid unused code succeeds, credits the claimant's balance
by the code's amount on the code's kind exactly once, and marks the code as
used; afterwards every further claim of the same code — by any caller, in
any letter case — returns the failure "Code already used." and changes
neither a balance nor a code record (the returned store is the same store).
The nonzero-id proviso is forced by the counterexample: the used-check is
Python truthiness, so a claim recorded with `used_by = 0` leaves the code
claimable again. -/
theorem C1_amended_redeem_exactly_once (s : St) (uid : Int) (code now : String)
    (u : UserRec) (row : CodeRec)
    (huid : uid ≠ 0)
    (hu : getUser s uid = some u)
    (hrow : s.codes.find? (fun r => r.code == pyUpper code) = some row)
    (hunused : row.usedBy = none) :
    (redeemCode s uid code now).2.1 = true ∧
    getUser (redeemCode s uid code now).1 uid
      = some (if row.codeType == some "diamonds"
          then { u with diamonds := u.diamonds + row.amount.getD 0 }
          else { u with credits := u.credits + row.amount.getD 0 }) ∧
    (redeemCode s uid code now).1.codes.find? (fun r => r.code == pyUpper code)
      = some { row with usedBy := some uid, usedAt := some now } ∧
    (∀ (uid2 : Int) (code2 now2 : String), pyUpper code2 = pyUpper code →
        redeemCode (redeemCode s uid code now).1 uid2 code2 now2
          = ((redeemCode s uid code now).1, false, "Code already used.")) := by
  have hrowkey := List.find?_some hrow
  have hfind : (redeemCode s uid code now).1.codes.find? (fun r => r.code == pyUpper code)
      = some { row with usedBy := some uid, usedAt := some now } := by
    unfold redeemCode
    rw [hrow]
    dsimp only
    rw [hunused]
    dsimp only [intTruthy]
    rw [if_neg (by simp)]
    dsimp only
    rw [find?_codes_marked, hrow]
    show some _ = some _
    simp only [hrowkey, eq_self_iff_true, if_true]
  refine ⟨?_, ?_, hfind, ?_⟩
  · unfold redeemCode
    rw [hrow]
    dsimp only
    rw [hunused]
    dsimp only [intTruthy]
    rw [if_neg (by simp)]
  · unfold redeemCode
    rw [hrow]
    dsimp only
    rw [hunused]
    dsimp only [intTruthy]
    rw [if_neg (by simp)]
    dsimp only
    by_cases hct : (row.codeType == some "diamonds") = true
    · rw [if_pos hct, if_pos hct]
      show (updWhere (fun v => v.userId == uid)
        (fun v => { v with diamonds := v.diamonds + row.amount.getD 0 }) s.users).find?
          (fun v => v.userId == uid) = _
      rw [find?_key_updWhere s.users uid
        (fun v => { v with diamonds := v.diamonds + row.amount.getD 0 }) (fun _ => rfl)]
      rw [show s.users.find? (fun v => v.userId == uid) = some u from hu]
      rfl
    · have hct' : ¬ (row.codeType == some "diamonds") = true := hct
      rw [if_neg hct', if_neg hct']
      show (updWhere (fun v => v.userId == uid)
        (fun v => { v with credits := v.credits + row.amount.getD 0 }) s.users).find?
          (fun v => v.userId == uid) = _
      rw [find?_key_updWhere s.users uid
        (fun v => { v with credits := v.credits + row.amount.getD 0 }) (fun _ => rfl)]
      rw [show s.users.find? (fun v => v.userId == uid) = some u from hu]
      rfl
  · intro uid2 code2 now2 hcase
    apply redeem_already_used _ uid2 code2 now2
      { row with usedBy := some uid, usedAt := some now }
    · rw [show (fun r : CodeRec => r.code == pyUpper code2)
            = (fun r : CodeRec => r.code == pyUpper code) from by rw [hcase]]
      exact hfind
    · show (uid != 0) = true
      simpa using huid

/-- C1 counterexample: the code "A" in `stRedeem` is claimed twice by two
different callers, and both claims succeed — caller 0's claim records
`used_by = 0`, which the Python truthiness check `if row["used_by"]:` treats
as unused, so caller 7's later claim does not get "Code already used.". -/
theorem C1_counterexample :
    (redeemCode stRedeem 0 "A" "n").2.1 = true ∧
    (redeemCode (redeemCode stRedeem 0 "A" "n").1 7 "a" "n").2.1 = true ∧
    (redeemCode (redeemCode stRedeem 0 "A" "n").1 7 "a" "n").2.2
      ≠ "Code already used." := by
  refine ⟨?_, ?_, ?_⟩
  · decide
  · decide
  · decide

/-- C1 witness: user 7 (nonzero id, existing row with 2 credits) redeems the
5-credit code "A" as "a": success, balance 7, code marked used, and a second
claim by user 5 in the original case fails with "Code already used." without
touching the store. -/
theorem C1_witness :
    (redeemCode stRedeem 7 "a" "n").2.1 = true ∧
    getUser (redeemCode stRedeem 7 "a" "n").1 7
      = some { userId := 7, credits := 7 } ∧
    redeemCode (redeemCode stRedeem 7 "a" "n").1 5 "A" "x"
      = ((redeemCode stRedeem 7 "a" "n").1, false, "Code already used.") := by
  have h := C1_amended_redeem_exactly_once stRedeem 7 "a" "n"
    { userId := 7, credits := 2 }
    { code := "A", codeType := some "credits", amount := some 5 }
    (by decide) (by decide) (by decide) rfl
  exact ⟨h.1, by decide, h.2.2.2 5 "A" "x" (by decide)⟩

/-! ## Claim C6 -/

theorem find?_key_updWhere_other (l : List UserRec) (uid rid : Int)
    (f : UserRec → UserRec) (hid : ∀ u, (f u).userId = u.userId) :
    (updWhere (fun v => v.userId == rid) f l).find? (fun v => v.userId == uid)
      = (l.find? (fun v => v.userId == uid)).map
          (fun v => if v.userId == rid then f v else v) := by
  unfold updWhere
  apply find?_map_pres
  intro x
  by_cases hx : (x.userId == rid) = true
  · simp only [hx, if_true, hid]
  · have hx' : (x.userId == rid) = false := by simpa using hx
    simp [hx']

theorem filter_key_updWhere (l : List UserRec) (uid rid : Int)
    (f : UserRec → UserRec) (hid : ∀ u, (f u).userId = u.userId) :
    (updWhere (fun v => v.userId == rid) f l).filter (fun v => v.userId == uid)
      = (l.filter (fun v => v.userId == uid)).map
          (fun v => if v.userId == rid then f v else v) := by
  unfold updWhere
  apply filter_map_pres
  intro x
  by_cases hx : (x.userId == rid) = true
  · simp only [hx, if_true, hid]
  · have hx' : (x.userId == rid) = false := by simpa using hx
    simp [hx']

theorem ensureUserRecord_existing (s : St) (uid : Int) (un fn : Option String)
    (ref : Option Int) (now : String) (u : UserRec) (h : getUser s uid = some u) :
    ensureUserRecord s uid un fn ref now = (s, some u) := by
  unfold ensureUserRecord
  rw [h]

/-- C6: account creation is idempotent including its referral side effect.
For a fresh user id with an existing, nonzero referrer: the first
`ensure_user_record` call leaves exactly one account row for the new id,
exactly one referral record for it, and exactly one increment of the
referrer's `referred_count` together with one referral-reward diamond; the
second identical call returns the stored record and changes nothing. -/
theorem C6_create_idempotent (s : St) (uid rid : Int) (un fn : Option String)
    (now : String) (r : UserRec)
    (hrid : rid ≠ 0)
    (habsent : getUser s uid = none)
    (href : getUser s rid = some r)
    (hnorec : s.referrals.filter (fun x => x.referredId == uid) = []) :
    (((ensureUserRecord s uid un fn (some rid) now).1).users.filter
        (fun v => v.userId == uid)).length = 1 ∧
    ((ensureUserRecord s uid un fn (some rid) now).1).referrals.filter
        (fun x => x.referredId == uid) = [⟨rid, uid, now⟩] ∧
    getUser (ensureUserRecord s uid un fn (some rid) now).1 rid
      = some { r with referredCount := r.referredCount + 1,
                      diamonds := r.diamonds + REFERRAL_REWARD_DIAMOND } ∧
    ensureUserRecord (ensureUserRecord s uid un fn (some rid) now).1 uid un fn
        (some rid) now
      = ((ensureUserRecord s uid un fn (some rid) now).1,
         getUser (ensureUserRecord s uid un fn (some rid) now).1 uid) := by
  have hne : uid ≠ rid := by
    intro hEq
    rw [hEq, href] at habsent
    exact Option.noConfusion habsent
  have hany_uid : s.users.any (fun v => v.userId == uid) = false :=
    any_key_none _ _ habsent
  have hmem_r : r ∈ s.users := List.mem_of_find?_eq_some href
  have hr_id : r.userId = rid := by simpa using List.find?_some href
  have hall_uid : ∀ x ∈ s.users, ¬ ((fun v => v.userId == uid) x) = true := by
    intro x hx
    simpa using (List.find?_eq_none.mp habsent) x hx
  have h1 : (ensureUserRecord s uid un fn (some rid) now).1
      = St.mk
          (updWhere (fun v => v.userId == rid)
            (fun v => { v with referredCount := v.referredCount + 1,
                               diamonds := v.diamonds + REFERRAL_REWARD_DIAMOND })
            (s.users ++ [{ userId := uid, username := un, firstName := fn, referrerId := some rid, joinedDate := some now, lastActive := some now }]))
          (s.referrals ++ [⟨rid, uid, now⟩])
          s.protectedNumbers s.blacklist s.searchLogs s.codes := by
    unfold ensureUserRecord
    rw [habsent]
    dsimp only
    unfold addUser
    rw [hany_uid]
    rw [if_neg (by simp)]
    dsimp only [intTruthy]
    rw [if_pos (show (rid != 0) = true by simpa using hrid)]
    dsimp only [Option.getD]
    have hsome : s.users.any (fun v => v.userId == rid) = true :=
      List.any_eq_true.mpr ⟨r, hmem_r, by simp [hr_id]⟩
    rw [List.any_append, hsome]
    rfl
  have hg_uid : getUser (ensureUserRecord s uid un fn (some rid) now).1 uid
      = some { userId := uid, username := un, firstName := fn, referrerId := some rid, joinedDate := some now, lastActive := some now } := by
    rw [h1]
    dsimp only [getUser]
    rw [find?_key_updWhere_other _ uid rid (fun v => { v with referredCount := v.referredCount + 1, diamonds := v.diamonds + REFERRAL_REWARD_DIAMOND }) (fun _ => rfl)]
    rw [List.find?_append]
    rw [show s.users.find? (fun v => v.userId == uid) = none from habsent]
    have hbne : (uid == rid) = false := by simpa using hne
    simp [List.find?, hbne, hne]
  refine ⟨?_, ?_, ?_, ?_⟩
  · rw [h1]
    dsimp only
    rw [filter_key_updWhere _ uid rid (fun v => { v with referredCount := v.referredCount + 1, diamonds := v.diamonds + REFERRAL_REWARD_DIAMOND }) (fun _ => rfl)]
    rw [List.filter_append]
    rw [List.filter_eq_nil_iff.mpr hall_uid]
    simp
  · rw [h1]
    dsimp only
    rw [List.filter_append, hnorec]
    simp
  · rw [h1]
    dsimp only [getUser]
    rw [find?_key_updWhere _ rid (fun v => { v with referredCount := v.referredCount + 1, diamonds := v.diamonds + REFERRAL_REWARD_DIAMOND }) (fun _ => rfl)]
    rw [List.find?_append]
    rw [show s.users.find? (fun v => v.userId == rid) = some r from href]
    rfl
  · rw [ensureUserRecord_existing _ uid un fn (some rid) now _ hg_uid, hg_uid]

/-- C6 witness: creating user 1 with referrer 9 in `stRef` twice yields one
account row, one referral record, referrer 9 at `referred_count = 1` with
one reward diamond, and a no-op second call. -/
theorem C6_witness :
    (((ensureUserRecord stRef 1 none none (some 9) "n").1).users.filter
        (fun v => v.userId == 1)).length = 1 ∧
    ((ensureUserRecord stRef 1 none none (some 9) "n").1).referrals.filter
        (fun x => x.referredId == 1) = [⟨9, 1, "n"⟩] ∧
    getUser (ensureUserRecord stRef 1 none none (some 9) "n").1 9
      = some { userId := 9, referredCount := 1, diamonds := 1 } ∧
    ensureUserRecord (ensureUserRecord stRef 1 none none (some 9) "n").1 1 none none
        (some 9) "n"
      = ((ensureUserRecord stRef 1 none none (some 9) "n").1,
         getUser (ensureUserRecord stRef 1 none none (some 9) "n").1 1) := by
  have h := C6_create_idempotent stRef 1 9 none none "n" { userId := 9 }
    (by decide) (by decide) (by decide) rfl
  exact ⟨h.1, h.2.1, by decide, h.2.2.2⟩

/-! ## Claim C8 -/

/-- C8 (Scenario A): the fresh non-privileged user 1 with
`credits = diamonds = daily_search_count = 0` issues group lookups on one
day: each of the first 30 is allowed (outcome `proceed`), after 30 of them
`daily_search_count = 30`, and the 31st is denied `quotaExhausted` with
credits, diamonds and the counter unchanged. -/
theorem C8_scenario_A :
    (∀ k : Nat, k < 30 →
        (handleLookup ctxGroup (iterLookup ctxGroup k stFresh)).2 = Outcome.proceed) ∧
    (getUser (iterLookup ctxGroup 30 stFresh) 1).map UserRec.dailySearchCount
      = some 30 ∧
    (handleLookup ctxGroup (iterLookup ctxGroup 30 stFresh)).2
      = Outcome.quotaExhausted ∧
    (getUser (handleLookup ctxGroup (iterLookup ctxGroup 30 stFresh)).1 1).map
        (fun u => (u.credits, u.diamonds, u.dailySearchCount)) = some (0, 0, 30) := by
  refine ⟨?_, ?_, ?_, ?_⟩ <;> decide

/-! ## Claim C3 -/

theorem isAdmin_eq (uid : Int) : isAdmin uid = (uid == OWNER_ID) := by
  simp [isAdmin, isOwner, isSudo, SUDO_USERS, OWNER_ID, List.contains]

/-- C3 counterexample: user 1 (count 0, same-day) requests the blacklisted
query "q" in a group; the request is denied with the blacklist reason but
`daily_search_count` has been incremented to 1 — refuting "neither
daily_search_count nor credits is mutated by that request" (the quota gate
ran first). -/
theorem C3_counterexample :
    (handleLookup ctxGroup stBlq).2 = Outcome.blacklistedQuery ∧
    (getUser stBlq 1).map UserRec.dailySearchCount = some 0 ∧
    (getUser (handleLookup ctxGroup stBlq).1 1).map UserRec.dailySearchCount
      = some 1 := by
  refine ⟨?_, ?_, ?_⟩ <;> decide

/-! ## Claim C4 -/

theorem map_diamonds_updateLastActive (s : St) (uid : Int) (now : String) :
    (getUser (updateLastActive s uid now) uid).map UserRec.diamonds
      = (getUser s uid).map UserRec.diamonds := by
  rw [getUser_updateLastActive]
  cases getUser s uid <;> rfl

theorem map_diamonds_incDailyCounter (s : St) (uid : Int) (today : String) :
    (getUser (incDailyCounter s uid today) uid).map UserRec.diamonds
      = (getUser s uid).map UserRec.diamonds := by
  rw [getUser_incDailyCounter]
  cases getUser s uid <;> rfl

theorem map_diamonds_updateCredits_deduct (s : St) (uid amt : Int) :
    (getUser (updateCredits s uid amt "deduct").1 uid).map UserRec.diamonds
      = (getUser s uid).map UserRec.diamonds := by
  rw [updateCredits_deduct]
  dsimp only
  rw [getUser_upd_guard s s.users uid (fun v => decide (amt ≤ v.credits))
    (fun v => { v with credits := v.credits - amt }) (fun _ => rfl)]
  show _ = (s.users.find? (fun v => v.userId == uid)).map UserRec.diamonds
  cases hf : s.users.find? (fun v => v.userId == uid) with
  | none => rfl
  | some v =>
    by_cases hg : (amt ≤ v.credits)
    · simp [hg]
    · simp [hg]

theorem map_diamonds_ensureDailyCounter (s : St) (uid : Int) (today : String) :
    (getUser (ensureDailyCounter s uid today).1 uid).map UserRec.diamonds
      = (getUser s uid).map UserRec.diamonds := by
  cases hg : getUser s uid with
  | none =>
    unfold ensureDailyCounter
    rw [hg]
    dsimp only
    rw [hg]
  | some v =>
    by_cases hd : v.lastSearchDate = some today
    · rw [ensureDailyCounter_noop s uid today v hg hd]
      show (getUser s uid).map UserRec.diamonds = _
      rw [hg]
    · rw [ensureDailyCounter_reset s uid today v hg hd]
      dsimp only
      rw [getUser_upd_key s s.users uid
        (fun w => { w with dailySearchCount := 0, vhownerDailyCount := 0,
                           lastSearchDate := some today }) (fun _ => rfl)]
      rw [show s.users.find? (fun v => v.userId == uid) = some v from hg]
      rfl

theorem quotaGate_spec (c : LookupCtx) (s : St) :
    (∀ s' o, quotaGate c s = Sum.inl (s', o) →
        o = Outcome.quotaExhausted ∧
        (getUser s' c.userId).map UserRec.diamonds
          = (getUser s c.userId).map UserRec.diamonds) ∧
    (∀ s', quotaGate c s = Sum.inr s' →
        (getUser s' c.userId).map UserRec.diamonds
          = (getUser s c.userId).map UserRec.diamonds) := by
  unfold quotaGate
  dsimp only
  by_cases h30 : DAILY_FREE_GROUP_LIMIT
      ≤ (match (ensureDailyCounter s c.userId c.today).2 with
          | some u => u.dailySearchCount
          | none => 0)
  · rw [if_pos h30]
    by_cases hcr : (match (ensureDailyCounter s c.userId c.today).2 with
        | some u => u.credits
        | none => 0) ≤ 0
    · rw [if_pos hcr]
      constructor
      · intro s' o h
        injection h with hpair
        have h1 : (ensureDailyCounter s c.userId c.today).1 = s' :=
          congrArg Prod.fst hpair
        have h2 : Outcome.quotaExhausted = o := congrArg Prod.snd hpair
        refine ⟨h2.symm, ?_⟩
        rw [← h1]
        exact map_diamonds_ensureDailyCounter s c.userId c.today
      · intro s' h
        exact Sum.noConfusion h
    · rw [if_neg hcr]
      constructor
      · intro s' o h
        exact Sum.noConfusion h
      · intro s' h
        injection h with h1
        rw [← h1]
        rw [map_diamonds_incDailyCounter, map_diamonds_updateCredits_deduct,
          map_diamonds_ensureDailyCounter]
  · rw [if_neg h30]
    constructor
    · intro s' o h
      exact Sum.noConfusion h
    · intro s' h
      injection h with h1
      rw [← h1]
      rw [map_diamonds_incDailyCounter, map_diamonds_ensureDailyCounter]

/-- C4 (amended): for every non-privileged user the explicit diamond cost is
never charged and the insufficient-diamonds denial is unreachable: in a
group the charge is computed as 0 (`cost_diamonds if chat is private else
0`), and in a direct message the scope gate denies non-admins before the
charging step, so the user's diamond balance is unchanged by every request
whatever its outcome. -/
theorem C4_amended_no_diamond_charge_for_nonadmin (c : LookupCtx) (s : St) (u : UserRec)
    (hadm : c.userId ≠ OWNER_ID) (hu : getUser s c.userId = some u) :
    (handleLookup c s).2 ≠ Outcome.insufficientDiamonds ∧
    (getUser (handleLookup c s).1 c.userId).map UserRec.diamonds = some u.diamonds := by
  have hadmB : isAdmin c.userId = false := by
    rw [isAdmin_eq]
    simpa using hadm
  have hu2 : getUser (updateLastActive s c.userId c.now) c.userId
      = some { u with lastActive := some c.now } := by
    rw [getUser_updateLastActive, hu]
    rfl
  have hdia2 : (getUser (updateLastActive s c.userId c.now) c.userId).map UserRec.diamonds
      = some u.diamonds := by
    rw [map_diamonds_updateLastActive, hu]
    rfl
  by_cases hmem : c.memberOk = true
  case neg =>
    have hm : c.memberOk = false := by
      cases hmemv : c.memberOk
      · rfl
      · exact absurd hmemv hmem
    have hres : handleLookup c s = (s, Outcome.notMember) := by
      unfold handleLookup
      rw [hadmB, hm]
      rw [if_pos (show ((!(false : Bool) && !(false : Bool)) = true) from rfl)]
    rw [hres]
    refine ⟨by simp, ?_⟩
    rw [show getUser (s, Outcome.notMember).1 c.userId = some u from hu]
    rfl
  case pos =>
    by_cases hb : u.isBanned = true
    · have hnb : dbIsBanned (updateLastActive s c.userId c.now) c.userId = true := by
        unfold dbIsBanned
        rw [hu2]
        exact hb
      have hres : handleLookup c s
          = (updateLastActive s c.userId c.now, Outcome.bannedUser) := by
        unfold handleLookup
        dsimp only
        rw [hadmB, hmem]
        rw [if_neg (show ¬ ((!(false : Bool) && !(true : Bool)) = true) from by simp)]
        rw [hu]
        rw [if_neg (show ¬ ((some u).isNone = true) from by simp)]
        rw [hnb]
        rw [if_pos (show ((true : Bool) = true) from rfl)]
      rw [hres]
      exact ⟨by simp, hdia2⟩
    · have hbf : u.isBanned = false := by
        cases hbv : u.isBanned
        · rfl
        · exact absurd hbv hb
      have hnb : dbIsBanned (updateLastActive s c.userId c.now) c.userId = false := by
        unfold dbIsBanned
        rw [hu2]
        exact hbf
      by_cases hp : c.chatPrivate = true
      · have hres : handleLookup c s
            = (updateLastActive s c.userId c.now, Outcome.dmDenied) := by
          unfold handleLookup
          dsimp only
          rw [hadmB, hmem]
          rw [if_neg (show ¬ ((!(false : Bool) && !(true : Bool)) = true) from by simp)]
          rw [hu]
          rw [if_neg (show ¬ ((some u).isNone = true) from by simp)]
          rw [hnb]
          rw [if_neg (show ¬ ((false : Bool) = true) from by simp)]
          rw [hp]
          rw [if_pos (show (((true : Bool) && !(false : Bool)) = true) from rfl)]
        rw [hres]
        exact ⟨by simp, hdia2⟩
      · have hpf : c.chatPrivate = false := by
          cases hpv : c.chatPrivate
          · rfl
          · exact absurd hpv hp
        have hspec := quotaGate_spec c (updateLastActive s c.userId c.now)
        cases hqg : quotaGate c (updateLastActive s c.userId c.now) with
        | inl d =>
          have hres : handleLookup c s = d := by
            unfold handleLookup
            dsimp only
            rw [hadmB, hmem]
            rw [if_neg (show ¬ ((!(false : Bool) && !(true : Bool)) = true) from by simp)]
            rw [hu]
            rw [if_neg (show ¬ ((some u).isNone = true) from by simp)]
            rw [hnb]
            rw [if_neg (show ¬ ((false : Bool) = true) from by simp)]
            rw [hpf]
            rw [if_neg (show ¬ (((false : Bool) && !(false : Bool)) = true) from by simp)]
            rw [if_pos (show ((!(false : Bool) && !(false : Bool)) = true) from rfl)]
            rw [hqg]
          have hd := hspec.1 d.1 d.2 (by rw [hqg])
          rw [hres]
          constructor
          · rw [show d.2 = Outcome.quotaExhausted from hd.1]
            simp
          · rw [hd.2, hdia2]
        | inr s5 =>
          have hd5 : (getUser s5 c.userId).map UserRec.diamonds = some u.diamonds := by
            rw [hspec.2 s5 hqg, hdia2]
          have hres : handleLookup c s
              = (if isBlacklisted s5 c.query then (s5, Outcome.blacklistedQuery)
                 else if isProtectedNum s5 c.query && !isOwner c.userId
                   then (s5, Outcome.protectedQuery)
                 else (logSearch s5 c.userId c.lookupType c.query c.now,
                       Outcome.proceed)) := by
            unfold handleLookup
            dsimp only
            rw [hadmB, hmem]
            rw [if_neg (show ¬ ((!(false : Bool) && !(true : Bool)) = true) from by simp)]
            rw [hu]
            rw [if_neg (show ¬ ((some u).isNone = true) from by simp)]
            rw [hnb]
            rw [if_neg (show ¬ ((false : Bool) = true) from by simp)]
            rw [hpf]
            rw [if_neg (show ¬ (((false : Bool) && !(false : Bool)) = true) from by simp)]
            rw [if_pos (show ((!(false : Bool) && !(false : Bool)) = true) from rfl)]
            rw [hqg]
            dsimp only
            rw [if_neg (show ¬ ((false : Bool) = true) from by simp)]
            rw [if_neg (show ¬ ((if (false : Bool) = true then c.costDiamonds else 0) ≠ 0)
              from by simp)]
          rw [hres]
          by_cases hbl : isBlacklisted s5 c.query = true
          · rw [if_pos hbl]
            exact ⟨by simp, hd5⟩
          · rw [if_neg hbl]
            by_cases hpr : (isProtectedNum s5 c.query && !isOwner c.userId) = true
            · rw [if_pos hpr]
              exact ⟨by simp, hd5⟩
            · rw [if_neg hpr]
              exact ⟨by simp, hd5⟩

/-- C4 counterexample: the non-privileged user 1 with `diamonds = 3`
requests the 5-diamond lookup kind in a group and the request is ALLOWED
(outcome `proceed`) with the balance untouched — not denied with an
insufficient-diamonds reason as claimed; in a direct message the same
request is denied by the scope gate (`dmDenied`), again not by the diamond
check. -/
theorem C4_counterexample :
    (handleLookup ctxCost stDia3).2 = Outcome.proceed ∧
    (getUser (handleLookup ctxCost stDia3).1 1).map UserRec.diamonds = some 3 ∧
    (handleLookup { ctxCost with chatPrivate := true } stDia3).2
      = Outcome.dmDenied := by
  refine ⟨?_, ?_, ?_⟩ <;> decide

/-- C4 witness: instantiates the amended theorem at the fixture. -/
theorem C4_witness :
    (handleLookup ctxCost stDia3).2 ≠ Outcome.insufficientDiamonds ∧
    (getUser (handleLookup ctxCost stDia3).1 1).map UserRec.diamonds = some 3 :=
  C4_amended_no_diamond_charge_for_nonadmin ctxCost stDia3
    { userId := 1, diamonds := 3, lastSearchDate := some "t" } (by decide) (by decide)

/-! ## Claim C10 -/

theorem map_countdate_incDailyCounter (s : St) (uid : Int) (today : String) :
    (getUser (incDailyCounter s uid today) uid).map
        (fun v => (v.dailySearchCount, v.lastSearchDate))
      = (getUser s uid).map (fun v => (v.dailySearchCount + 1, some today)) := by
  rw [getUser_incDailyCounter]
  cases getUser s uid <;> rfl

theorem map_countinc_updateCredits_deduct (s : St) (uid amt : Int) (today : String) :
    (getUser (updateCredits s uid amt "deduct").1 uid).map
        (fun v => (v.dailySearchCount + 1, some today))
      = (getUser s uid).map (fun v => (v.dailySearchCount + 1, some today)) := by
  rw [updateCredits_deduct]
  dsimp only
  rw [getUser_upd_guard s s.users uid (fun v => decide (amt ≤ v.credits))
    (fun v => { v with credits := v.credits - amt }) (fun _ => rfl)]
  show _ = (s.users.find? (fun v => v.userId == uid)).map _
  cases hf : s.users.find? (fun v => v.userId == uid) with
  | none => rfl
  | some v =>
    by_cases hg : (amt ≤ v.credits)
    · simp [hg]
    · simp [hg]

theorem ensureDailyCounter_tables (s : St) (uid : Int) (today : String) :
    ((ensureDailyCounter s uid today).1).blacklist = s.blacklist ∧
    ((ensureDailyCounter s uid today).1).protectedNumbers = s.protectedNumbers := by
  unfold ensureDailyCounter
  cases hg : getUser s uid with
  | none => exact ⟨rfl, rfl⟩
  | some v =>
    dsimp only
    split
    · exact ⟨rfl, rfl⟩
    · exact ⟨rfl, rfl⟩

theorem quotaGate_inr_tables (c : LookupCtx) (s s' : St)
    (h : quotaGate c s = Sum.inr s') :
    s'.blacklist = s.blacklist ∧ s'.protectedNumbers = s.protectedNumbers := by
  unfold quotaGate at h
  dsimp only at h
  by_cases h30 : DAILY_FREE_GROUP_LIMIT
      ≤ (match (ensureDailyCounter s c.userId c.today).2 with
          | some v => v.dailySearchCount
          | none => 0)
  · rw [if_pos h30] at h
    by_cases hcr : (match (ensureDailyCounter s c.userId c.today).2 with
        | some v => v.credits
        | none => 0) ≤ 0
    · rw [if_pos hcr] at h
      exact Sum.noConfusion h
    · rw [if_neg hcr] at h
      injection h with h1
      rw [← h1]
      constructor
      · show ((ensureDailyCounter s c.userId c.today).1).blacklist = s.blacklist
        exact (ensureDailyCounter_tables s c.userId c.today).1
      · show ((ensureDailyCounter s c.userId c.today).1).protectedNumbers
            = s.protectedNumbers
        exact (ensureDailyCounter_tables s c.userId c.today).2
  · rw [if_neg h30] at h
    injection h with h1
    rw [← h1]
    constructor
    · show ((ensureDailyCounter s c.userId c.today).1).blacklist = s.blacklist
      exact (ensureDailyCounter_tables s c.userId c.today).1
    · show ((ensureDailyCounter s c.userId c.today).1).protectedNumbers
          = s.protectedNumbers
      exact (ensureDailyCounter_tables s c.userId c.today).2

/-- C10: every allowed group lookup by a non-admin user (member, not
banned, clean query) increments `daily_search_count` by exactly 1 relative
to its post-rollover value and stamps `last_search_date` with the current
date — including lookups paid with a credit once the free limit is reached,
so the counter can exceed the daily free limit of 30 within one day (the
witness ends at 31). -/
theorem C10_allowed_lookup_increments (c : LookupCtx) (s : St) (u : UserRec)
    (hadm : c.userId ≠ OWNER_ID) (hmem : c.memberOk = true) (hgrp : c.chatPrivate = false)
    (hu : getUser s c.userId = some u) (hban : u.isBanned = false)
    (hbl : isBlacklisted s c.query = false) (hpr : isProtectedNum s c.query = false)
    (hallow : (if u.lastSearchDate = some c.today then u.dailySearchCount else 0)
        < DAILY_FREE_GROUP_LIMIT ∨ 0 < u.credits) :
    (handleLookup c s).2 = Outcome.proceed ∧
    (getUser (handleLookup c s).1 c.userId).map
        (fun v => (v.dailySearchCount, v.lastSearchDate))
      = some ((if u.lastSearchDate = some c.today then u.dailySearchCount else 0) + 1,
              some c.today) := by
  have hadmB : isAdmin c.userId = false := by
    rw [isAdmin_eq]
    simpa using hadm
  have hu2 : getUser (updateLastActive s c.userId c.now) c.userId
      = some { u with lastActive := some c.now } := by
    rw [getUser_updateLastActive, hu]
    rfl
  have hnb : dbIsBanned (updateLastActive s c.userId c.now) c.userId = false := by
    unfold dbIsBanned
    rw [hu2]
    exact hban
  have hquota : ∃ s5 : St, quotaGate c (updateLastActive s c.userId c.now) = Sum.inr s5 ∧
      (getUser s5 c.userId).map (fun v => (v.dailySearchCount, v.lastSearchDate))
        = some ((if u.lastSearchDate = some c.today then u.dailySearchCount else 0) + 1,
                some c.today) := by
    by_cases hd : u.lastSearchDate = some c.today
    · have hnoop := ensureDailyCounter_noop (updateLastActive s c.userId c.now)
        c.userId c.today { u with lastActive := some c.now } hu2 hd
      by_cases h30 : DAILY_FREE_GROUP_LIMIT ≤ u.dailySearchCount
      · have hcred : 0 < u.credits := by
          rcases hallow with hlt | hcr
          · rw [if_pos hd] at hlt
            exact absurd hlt (not_lt.mpr h30)
          · exact hcr
        refine ⟨incDailyCounter
            (updateCredits (updateLastActive s c.userId c.now) c.userId 1 "deduct").1
            c.userId c.today, ?_, ?_⟩
        · unfold quotaGate
          rw [hnoop]
          dsimp only
          rw [if_pos h30]
          rw [if_neg (not_le.mpr hcred)]
        · rw [map_countdate_incDailyCounter, map_countinc_updateCredits_deduct]
          rw [hu2]
          rw [if_pos hd]
          rfl
      · refine ⟨incDailyCounter (updateLastActive s c.userId c.now) c.userId c.today,
            ?_, ?_⟩
        · unfold quotaGate
          rw [hnoop]
          dsimp only
          rw [if_neg h30]
        · rw [map_countdate_incDailyCounter, hu2]
          rw [if_pos hd]
          rfl
    · have hreset := ensureDailyCounter_reset (updateLastActive s c.userId c.now)
        c.userId c.today { u with lastActive := some c.now } hu2 hd
      refine ⟨incDailyCounter (ensureDailyCounter (updateLastActive s c.userId c.now)
          c.userId c.today).1 c.userId c.today, ?_, ?_⟩
      · unfold quotaGate
        rw [hreset]
        dsimp only
        rw [if_neg (show ¬ (DAILY_FREE_GROUP_LIMIT ≤ (0 : Int)) from by decide)]
      · rw [map_countdate_incDailyCounter]
        rw [hreset]
        dsimp only
        rw [getUser_upd_key (updateLastActive s c.userId c.now)
          (updateLastActive s c.userId c.now).users c.userId
          (fun w => { w with dailySearchCount := 0, vhownerDailyCount := 0,
                             lastSearchDate := some c.today }) (fun _ => rfl)]
        rw [show (updateLastActive s c.userId c.now).users.find?
            (fun v => v.userId == c.userId)
            = some { u with lastActive := some c.now } from hu2]
        rw [if_neg hd]
        rfl
  rcases hquota with ⟨s5, hqg, hs5⟩
  have htab := quotaGate_inr_tables c (updateLastActive s c.userId c.now) s5 hqg
  have hbl5 : isBlacklisted s5 c.query = false := by
    unfold isBlacklisted
    rw [htab.1]
    exact hbl
  have hpr5 : isProtectedNum s5 c.query = false := by
    unfold isProtectedNum
    rw [htab.2]
    exact hpr
  have hres : handleLookup c s
      = (logSearch s5 c.userId c.lookupType c.query c.now, Outcome.proceed) := by
    unfold handleLookup
    dsimp only
    rw [hadmB, hmem]
    rw [if_neg (show ¬ ((!(false : Bool) && !(true : Bool)) = true) from by simp)]
    rw [hu]
    rw [if_neg (show ¬ ((some u).isNone = true) from by simp)]
    rw [hnb]
    rw [if_neg (show ¬ ((false : Bool) = true) from by simp)]
    rw [hgrp]
    rw [if_neg (show ¬ (((false : Bool) && !(false : Bool)) = true) from by simp)]
    rw [if_pos (show ((!(false : Bool) && !(false : Bool)) = true) from rfl)]
    rw [hqg]
    dsimp only
    rw [hbl5]
    rw [if_neg (show ¬ ((false : Bool) = true) from by simp)]
    rw [hpr5]
    rw [if_neg (show ¬ (((false : Bool) && !isOwner c.userId) = true) from by simp)]
    rw [if_neg (show ¬ ((false : Bool) = true) from by simp)]
    rw [if_neg (show ¬ ((if (false : Bool) = true then c.costDiamonds else 0) ≠ 0)
      from by simp)]
  rw [hres]
  refine ⟨rfl, ?_⟩
  rw [show getUser (logSearch s5 c.userId c.lookupType c.query c.now, Outcome.proceed).1
      c.userId = getUser s5 c.userId from rfl]
  exact hs5

/-- C10 witness: user 1 with `daily_search_count = 30` and one credit is
allowed (paying the credit) and the counter reaches 31, exceeding the free
limit of 30. -/
theorem C10_witness :
    (handleLookup ctxGroup stPaid).2 = Outcome.proceed ∧
    (getUser (handleLookup ctxGroup stPaid).1 1).map
        (fun v => (v.dailySearchCount, v.lastSearchDate))
      = some (31, some "t") := by
  have h := C10_allowed_lookup_increments ctxGroup stPaid
    { userId := 1, dailySearchCount := 30, credits := 1, lastSearchDate := some "t" }
    (by decide) rfl rfl (by decide) rfl (by decide) (by decide) (by decide)
  exact ⟨h.1, by decide⟩

/-! ## Claim C3 (amended theorem) -/

theorem map4_incDailyCounter (s : St) (uid : Int) (today : String) :
    (getUser (incDailyCounter s uid today) uid).map
        (fun v => (v.dailySearchCount, v.lastSearchDate, v.credits, v.diamonds))
      = (getUser s uid).map
          (fun v => (v.dailySearchCount + 1, some today, v.credits, v.diamonds)) := by
  rw [getUser_incDailyCounter]
  cases getUser s uid <;> rfl

/-- C3 (amended): the content gate runs AFTER the quota/charge counter
gate, not before it.  For every group lookup by a non-privileged,
non-banned member whose query is blacklisted: whenever the quota gate
admits the request — post-rollover counter under the free limit, or at the
limit with a positive credit balance — the request is denied with the
blacklist reason only after `daily_search_count` has been incremented by 1
and `last_search_date` stamped (and, in the past-the-limit case, one credit
deducted); diamonds are never touched.  When the counter is at the limit
and no credits remain the quota gate denies first, with the quota-exhausted
reason, and the blacklist is never consulted. -/
theorem C3_amended_blacklist_after_quota (c : LookupCtx) (s : St) (u : UserRec)
    (hadm : c.userId ≠ OWNER_ID) (hmem : c.memberOk = true) (hgrp : c.chatPrivate = false)
    (hu : getUser s c.userId = some u) (hban : u.isBanned = false)
    (hbl : isBlacklisted s c.query = true) :
    ((if u.lastSearchDate = some c.today then u.dailySearchCount else 0)
        < DAILY_FREE_GROUP_LIMIT →
      (handleLookup c s).2 = Outcome.blacklistedQuery ∧
      (getUser (handleLookup c s).1 c.userId).map
          (fun v => (v.dailySearchCount, v.lastSearchDate, v.credits, v.diamonds))
        = some ((if u.lastSearchDate = some c.today then u.dailySearchCount else 0) + 1,
                some c.today, u.credits, u.diamonds)) ∧
    (DAILY_FREE_GROUP_LIMIT
        ≤ (if u.lastSearchDate = some c.today then u.dailySearchCount else 0) →
      0 < u.credits →
      (handleLookup c s).2 = Outcome.blacklistedQuery ∧
      (getUser (handleLookup c s).1 c.userId).map
          (fun v => (v.dailySearchCount, v.lastSearchDate, v.credits, v.diamonds))
        = some (u.dailySearchCount + 1, some c.today, u.credits - 1, u.diamonds)) ∧
    (DAILY_FREE_GROUP_LIMIT
        ≤ (if u.lastSearchDate = some c.today then u.dailySearchCount else 0) →
      u.credits ≤ 0 →
      (handleLookup c s).2 = Outcome.quotaExhausted ∧
      (getUser (handleLookup c s).1 c.userId).map
          (fun v => (v.dailySearchCount, v.lastSearchDate, v.credits, v.diamonds))
        = some (u.dailySearchCount, u.lastSearchDate, u.credits, u.diamonds)) := by
  have hadmB : isAdmin c.userId = false := by
    rw [isAdmin_eq]
    simpa using hadm
  have hu2 : getUser (updateLastActive s c.userId c.now) c.userId
      = some { u with lastActive := some c.now } := by
    rw [getUser_updateLastActive, hu]
    rfl
  have hnb : dbIsBanned (updateLastActive s c.userId c.now) c.userId = false := by
    unfold dbIsBanned
    rw [hu2]
    exact hban
  refine ⟨?_, ?_, ?_⟩
  · intro hlt
    by_cases hd : u.lastSearchDate = some c.today
    · rw [if_pos hd] at hlt
      have hnoop := ensureDailyCounter_noop (updateLastActive s c.userId c.now)
        c.userId c.today { u with lastActive := some c.now } hu2 hd
      have hqg : quotaGate c (updateLastActive s c.userId c.now)
          = Sum.inr (incDailyCounter (updateLastActive s c.userId c.now)
              c.userId c.today) := by
        unfold quotaGate
        rw [hnoop]
        dsimp only
        rw [if_neg (not_le.mpr hlt)]
      have hbl5 : isBlacklisted (incDailyCounter (updateLastActive s c.userId c.now)
          c.userId c.today) c.query = true := by
        unfold isBlacklisted
        rw [(quotaGate_inr_tables c (updateLastActive s c.userId c.now) _ hqg).1]
        exact hbl
      have hres : handleLookup c s
          = (incDailyCounter (updateLastActive s c.userId c.now) c.userId c.today,
             Outcome.blacklistedQuery) := by
        unfold handleLookup
        dsimp only
        rw [hadmB, hmem]
        rw [if_neg (show ¬ ((!(false : Bool) && !(true : Bool)) = true) from by simp)]
        rw [hu]
        rw [if_neg (show ¬ ((some u).isNone = true) from by simp)]
        rw [hnb]
        rw [if_neg (show ¬ ((false : Bool) = true) from by simp)]
        rw [hgrp]
        rw [if_neg (show ¬ (((false : Bool) && !(false : Bool)) = true) from by simp)]
        rw [if_pos (show ((!(false : Bool) && !(false : Bool)) = true) from rfl)]
        rw [hqg]
        dsimp only
        rw [hbl5]
        rw [if_pos (show ((true : Bool) = true) from rfl)]
      rw [hres]
      refine ⟨rfl, ?_⟩
      rw [show getUser (incDailyCounter (updateLastActive s c.userId c.now) c.userId
          c.today, Outcome.blacklistedQuery).1 c.userId
          = getUser (incDailyCounter (updateLastActive s c.userId c.now) c.userId
              c.today) c.userId from rfl]
      rw [map4_incDailyCounter, hu2]
      rw [if_pos hd]
      rfl
    · have hreset := ensureDailyCounter_reset (updateLastActive s c.userId c.now)
        c.userId c.today { u with lastActive := some c.now } hu2 hd
      have hqg : quotaGate c (updateLastActive s c.userId c.now)
          = Sum.inr (incDailyCounter (ensureDailyCounter
              (updateLastActive s c.userId c.now) c.userId c.today).1
              c.userId c.today) := by
        unfold quotaGate
        rw [hreset]
        dsimp only
        rw [if_neg (show ¬ (DAILY_FREE_GROUP_LIMIT ≤ (0 : Int)) from by decide)]
      have hbl5 : isBlacklisted (incDailyCounter (ensureDailyCounter
          (updateLastActive s c.userId c.now) c.userId c.today).1 c.userId c.today)
          c.query = true := by
        unfold isBlacklisted
        rw [(quotaGate_inr_tables c (updateLastActive s c.userId c.now) _ hqg).1]
        exact hbl
      have hres : handleLookup c s
          = (incDailyCounter (ensureDailyCounter (updateLastActive s c.userId c.now)
              c.userId c.today).1 c.userId c.today, Outcome.blacklistedQuery) := by
        unfold handleLookup
        dsimp only
        rw [hadmB, hmem]
        rw [if_neg (show ¬ ((!(false : Bool) && !(true : Bool)) = true) from by simp)]
        rw [hu]
        rw [if_neg (show ¬ ((some u).isNone = true) from by simp)]
        rw [hnb]
        rw [if_neg (show ¬ ((false : Bool) = true) from by simp)]
        rw [hgrp]
        rw [if_neg (show ¬ (((false : Bool) && !(false : Bool)) = true) from by simp)]
        rw [if_pos (show ((!(false : Bool) && !(false : Bool)) = true) from rfl)]
        rw [hqg]
        dsimp only
        rw [hbl5]
        rw [if_pos (show ((true : Bool) = true) from rfl)]
      rw [hres]
      refine ⟨rfl, ?_⟩
      rw [show getUser (incDailyCounter (ensureDailyCounter (updateLastActive s
          c.userId c.now) c.userId c.today).1 c.userId c.today,
          Outcome.blacklistedQuery).1 c.userId
          = getUser (incDailyCounter (ensureDailyCounter (updateLastActive s c.userId
              c.now) c.userId c.today).1 c.userId c.today) c.userId from rfl]
      rw [map4_incDailyCounter]
      rw [hreset]
      dsimp only
      rw [getUser_upd_key (updateLastActive s c.userId c.now)
        (updateLastActive s c.userId c.now).users c.userId
        (fun w => { w with dailySearchCount := 0, vhownerDailyCount := 0,
                           lastSearchDate := some c.today }) (fun _ => rfl)]
      rw [show (updateLastActive s c.userId c.now).users.find?
          (fun v => v.userId == c.userId)
          = some { u with lastActive := some c.now } from hu2]
      rw [if_neg hd]
      rfl
  · intro h30 hcred
    by_cases hd : u.lastSearchDate = some c.today
    case neg =>
      rw [if_neg hd] at h30
      exact absurd h30 (by decide)
    case pos =>
      rw [if_pos hd] at h30
      have hnoop := ensureDailyCounter_noop (updateLastActive s c.userId c.now)
        c.userId c.today { u with lastActive := some c.now } hu2 hd
      have hqg : quotaGate c (updateLastActive s c.userId c.now)
          = Sum.inr (incDailyCounter (updateCredits
              (updateLastActive s c.userId c.now) c.userId 1 "deduct").1
              c.userId c.today) := by
        unfold quotaGate
        rw [hnoop]
        dsimp only
        rw [if_pos h30]
        rw [if_neg (not_le.mpr hcred)]
      have hbl5 : isBlacklisted (incDailyCounter (updateCredits
          (updateLastActive s c.userId c.now) c.userId 1 "deduct").1 c.userId
          c.today) c.query = true := by
        unfold isBlacklisted
        rw [(quotaGate_inr_tables c (updateLastActive s c.userId c.now) _ hqg).1]
        exact hbl
      have hres : handleLookup c s
          = (incDailyCounter (updateCredits (updateLastActive s c.userId c.now)
              c.userId 1 "deduct").1 c.userId c.today, Outcome.blacklistedQuery) := by
        unfold handleLookup
        dsimp only
        rw [hadmB, hmem]
        rw [if_neg (show ¬ ((!(false : Bool) && !(true : Bool)) = true) from by simp)]
        rw [hu]
        rw [if_neg (show ¬ ((some u).isNone = true) from by simp)]
        rw [hnb]
        rw [if_neg (show ¬ ((false : Bool) = true) from by simp)]
        rw [hgrp]
        rw [if_neg (show ¬ (((false : Bool) && !(false : Bool)) = true) from by simp)]
        rw [if_pos (show ((!(false : Bool) && !(false : Bool)) = true) from rfl)]
        rw [hqg]
        dsimp only
        rw [hbl5]
        rw [if_pos (show ((true : Bool) = true) from rfl)]
      rw [hres]
      refine ⟨rfl, ?_⟩
      rw [show getUser (incDailyCounter (updateCredits (updateLastActive s c.userId
          c.now) c.userId 1 "deduct").1 c.userId c.today,
          Outcome.blacklistedQuery).1 c.userId
          = getUser (incDailyCounter (updateCredits (updateLastActive s c.userId
              c.now) c.userId 1 "deduct").1 c.userId c.today) c.userId from rfl]
      rw [map4_incDailyCounter]
      rw [(deduct_credits_success (updateLastActive s c.userId c.now) c.userId 1
        { u with lastActive := some c.now } hu2 (by
          show (1 : Int) ≤ u.credits
          omega)).2]
      rfl
  · intro h30 hcr
    by_cases hd : u.lastSearchDate = some c.today
    case neg =>
      rw [if_neg hd] at h30
      exact absurd h30 (by decide)
    case pos =>
      rw [if_pos hd] at h30
      have hnoop := ensureDailyCounter_noop (updateLastActive s c.userId c.now)
        c.userId c.today { u with lastActive := some c.now } hu2 hd
      have hqg : quotaGate c (updateLastActive s c.userId c.now)
          = Sum.inl (updateLastActive s c.userId c.now, Outcome.quotaExhausted) := by
        unfold quotaGate
        rw [hnoop]
        dsimp only
        rw [if_pos h30]
        rw [if_pos hcr]
      have hres : handleLookup c s
          = (updateLastActive s c.userId c.now, Outcome.quotaExhausted) := by
        unfold handleLookup
        dsimp only
        rw [hadmB, hmem]
        rw [if_neg (show ¬ ((!(false : Bool) && !(true : Bool)) = true) from by simp)]
        rw [hu]
        rw [if_neg (show ¬ ((some u).isNone = true) from by simp)]
        rw [hnb]
        rw [if_neg (show ¬ ((false : Bool) = true) from by simp)]
        rw [hgrp]
        rw [if_neg (show ¬ (((false : Bool) && !(false : Bool)) = true) from by simp)]
        rw [if_pos (show ((!(false : Bool) && !(false : Bool)) = true) from rfl)]
        rw [hqg]
      rw [hres]
      refine ⟨rfl, ?_⟩
      rw [show getUser (updateLastActive s c.userId c.now,
          Outcome.quotaExhausted).1 c.userId
          = getUser (updateLastActive s c.userId c.now) c.userId from rfl]
      rw [hu2]
      rfl

/-- C3 witness: instantiates the amended theorem in both admitted cases —
user 1 under the free limit (counter 0 → 1) and user 1 at the limit paying
a credit (counter 30 → 31, credits 1 → 0); both are denied with the
blacklist reason after the quota gate has mutated the state. -/
theorem C3_witness :
    ((handleLookup ctxGroup stBlq).2 = Outcome.blacklistedQuery ∧
     (getUser (handleLookup ctxGroup stBlq).1 1).map
         (fun v => (v.dailySearchCount, v.lastSearchDate, v.credits, v.diamonds))
       = some (1, some "t", 0, 0)) ∧
    ((handleLookup ctxGroup stBlqPaid).2 = Outcome.blacklistedQuery ∧
     (getUser (handleLookup ctxGroup stBlqPaid).1 1).map
         (fun v => (v.dailySearchCount, v.lastSearchDate, v.credits, v.diamonds))
       = some (31, some "t", 0, 0)) := by
  refine ⟨?_, ?_⟩
  · exact (C3_amended_blacklist_after_quota ctxGroup stBlq
      { userId := 1, lastSearchDate := some "t" }
      (by decide) rfl rfl (by decide) rfl (by decide)).1 (by decide)
  · exact (C3_amended_blacklist_after_quota ctxGroup stBlqPaid
      { userId := 1, dailySearchCount := 30, credits := 1, lastSearchDate := some "t" }
      (by decide) rfl rfl (by decide) rfl (by decide)).2.1 (by decide) (by decide)

/-! ## Claim C9 (amended theorem) -/

/-- C9 (amended): if `redeem_code` is called with a `user_id` for which no
account row exists and the code is valid and unused, the call still reports
success and sets `used_by` to that id (and stamps `used_at`), while the
crediting UPDATE matches no row: the users table is completely unchanged,
so no balance anywhere is increased.  The code is PERMANENTLY consumed only
when the id is nonzero (fourth conjunct): with id 0 the truthiness
used-check still treats it as unused, as the counterexample shows. -/
theorem C9_redeem_missing_user (s : St) (uid : Int) (code now : String) (row : CodeRec)
    (huid : uid ≠ 0)
    (hu : getUser s uid = none)
    (hrow : s.codes.find? (fun r => r.code == pyUpper code) = some row)
    (hunused : row.usedBy = none) :
    (redeemCode s uid code now).2.1 = true ∧
    (redeemCode s uid code now).1.users = s.users ∧
    (redeemCode s uid code now).1.codes.find? (fun r => r.code == pyUpper code)
      = some { row with usedBy := some uid, usedAt := some now } ∧
    (∀ (uid2 : Int) (code2 now2 : String), pyUpper code2 = pyUpper code →
        redeemCode (redeemCode s uid code now).1 uid2 code2 now2
          = ((redeemCode s uid code now).1, false, "Code already used.")) := by
  have hall : ∀ x ∈ s.users, ((fun u => u.userId == uid) x) = false := by
    intro x hx
    simpa using (List.find?_eq_none.mp hu) x hx
  have hrowkey := List.find?_some hrow
  have hfind : (redeemCode s uid code now).1.codes.find? (fun r => r.code == pyUpper code)
      = some { row with usedBy := some uid, usedAt := some now } := by
    unfold redeemCode
    rw [hrow]
    dsimp only
    rw [hunused]
    dsimp only [intTruthy]
    rw [if_neg (by simp)]
    dsimp only
    rw [find?_codes_marked, hrow]
    show some _ = some _
    simp only [hrowkey, eq_self_iff_true, if_true]
  refine ⟨?_, ?_, hfind, ?_⟩
  · unfold redeemCode
    rw [hrow]
    dsimp only
    rw [hunused]
    dsimp only [intTruthy]
    rw [if_neg (by simp)]
  · unfold redeemCode
    rw [hrow]
    dsimp only
    rw [hunused]
    dsimp only [intTruthy]
    rw [if_neg (by simp)]
    dsimp only
    by_cases hct : (row.codeType == some "diamonds") = true
    · rw [if_pos hct]
      exact updWhere_eq_self _ _ _ hall
    · have hct' : (row.codeType == some "diamonds") = false := by simpa using hct
      simp only [hct', Bool.false_eq_true, if_false]
      exact updWhere_eq_self _ _ _ hall
  · intro uid2 code2 now2 hcase
    apply redeem_already_used _ uid2 code2 now2
      { row with usedBy := some uid, usedAt := some now }
    · rw [show (fun r : CodeRec => r.code == pyUpper code2)
            = (fun r : CodeRec => r.code == pyUpper code) from by rw [hcase]]
      exact hfind
    · show (uid != 0) = true
      simpa using huid

/-- C9 counterexample: user 0 has no account row in `stRedeem`; redeeming
the unused code "A" reports success, records `used_by = 0` and changes no
user row — but the code is NOT permanently consumed as claimed: a later
claim by user 7 succeeds again, because the Python truthiness used-check
`if row["used_by"]:` treats `used_by = 0` as unused. -/
theorem C9_counterexample :
    getUser stRedeem 0 = none ∧
    (redeemCode stRedeem 0 "A" "n").2.1 = true ∧
    (redeemCode stRedeem 0 "A" "n").1.users = stRedeem.users ∧
    (redeemCode (redeemCode stRedeem 0 "A" "n").1 7 "A" "x").2.1 = true := by
  refine ⟨?_, ?_, ?_, ?_⟩ <;> decide

/-- C9 witness: user 5 (nonzero, no account row in `stRedeem`) redeems the
unused code "a" (stored as "A"): success, no user row changed, the code
stamped as used by 5, and a later claim by user 9 fails with "Code already
used." without touching the store. -/
theorem C9_witness :
    (redeemCode stRedeem 5 "a" "n").2.1 = true ∧
    (redeemCode stRedeem 5 "a" "n").1.users = stRedeem.users ∧
    (redeemCode stRedeem 5 "a" "n").1.codes.find? (fun r => r.code == pyUpper "a")
      = some { code := "A", codeType := some "credits", amount := some 5,
               usedBy := some 5, usedAt := some "n" } ∧
    redeemCode (redeemCode stRedeem 5 "a" "n").1 9 "A" "x"
      = ((redeemCode stRedeem 5 "a" "n").1, false, "Code already used.") := by
  have h := C9_redeem_missing_user stRedeem 5 "a" "n"
    { code := "A", codeType := some "credits", amount := some 5 }
    (by decide) (by decide) (by decide) rfl
  exact ⟨h.1, h.2.1, h.2.2.1, h.2.2.2 9 "A" "x" (by decide)⟩

end Osint
